import Mathlib

/-!
Shallow embedding of the stock batch lifecycle and settlement engine of the
`js_boilerplate` repository (stock controller).  Amounts and prices are
modelled as rationals; database rows are lists of records; timestamps are
natural numbers drawn from a logical clock (`save` bumps `updatedAt` to the
current clock value).  Fallible controller paths return `Except` values or
outcome types that carry the (unchanged) database on failure, mirroring the
transactional rollback in the source.
-/

/-- `stockEvent` column: `ENUM("stock_in", "stock_out")`. -/
inductive StockEvent
  | stock_in
  | stock_out
deriving DecidableEq, Repr

/-- `status` column of a stock row: `ENUM("created", "canceled", "removed", "settled")`. -/
inductive StockStatus
  | created
  | canceled
  | removed
  | settled
deriving DecidableEq, Repr

/-- Status of a `StockBatch` row. -/
inductive BatchStatus
  | processing
  | completed
  | settled
  | canceled
  | failed
deriving DecidableEq, Repr

/-- A `Price` row: price snapshot for a metric, created at some time. -/
structure Price where
  metricId : Nat
  price : Rat
  netPrice : Rat
  salesmanPrice : Rat
  subAgentPrice : Rat
  agentPrice : Rat
  createdAt : Nat
deriving DecidableEq, Repr

/-- The `Percentage` table, keyed accesses collected into one record.
A `none` entry models a missing key in the key/value table. -/
structure PercentageMap where
  supplier : Option Rat
  shop : Option Rat
  salesman : Option Rat
  subAgent : Option Rat
  agent : Option Rat
deriving DecidableEq, Repr

/-- JS `percentageMap[k] || 0`: a missing (or zero) value falls back to `0`. -/
def pmGet (o : Option Rat) : Rat := o.getD 0

/-- A `Stock` row.  Nullable columns are `Option`; `totalDistributorShare`
is declared `allowNull: false` in the model, hence a plain `Rat`. -/
structure Stock where
  id : Nat
  metricId : Nat
  stockEvent : StockEvent
  initialAmount : Option Rat
  amount : Rat
  updateAmount : Option Rat
  totalPrice : Rat
  totalNetPrice : Rat
  salesmanPrice : Rat
  subAgentPrice : Rat
  agentPrice : Rat
  totalDistributorShare : Rat
  totalSalesShare : Option Rat
  totalSubAgentShare : Option Rat
  totalAgentShare : Option Rat
  totalShopShare : Option Rat
  createdBy : String
  canceledBy : Option String
  settledBy : Option String
  salesId : Option Nat
  subAgentId : Option Nat
  agentId : Option Nat
  shopId : Option Nat
  status : StockStatus
  stockBatchId : Option Nat
  createdAt : Nat
  updatedAt : Nat
deriving DecidableEq, Repr

/-- A `StockBatch` row. -/
structure StockBatch where
  id : Nat
  batchType : String
  status : BatchStatus
  itemCount : Nat
  successCount : Option Nat
  failureCount : Option Nat
  errorMessage : Option String
  createdBy : String
  canceledBy : Option String
deriving DecidableEq, Repr

/-- The database state.  `clock` is the logical time used for `createdAt` /
`updatedAt` stamps; `nextStockId` / `nextBatchId` model id generation. -/
structure DB where
  stocks : List Stock
  batches : List StockBatch
  prices : List Price
  percentages : PercentageMap
  clock : Nat
  nextStockId : Nat
  nextBatchId : Nat
deriving DecidableEq, Repr

/-- `Price.findOne({where: {metricId}, order: [["createdAt", "DESC"]]})`:
the price row for the metric with the greatest `createdAt`. -/
def latestPriceFor (m : Nat) (l : List Price) : Option Price :=
  l.foldl
    (fun acc p =>
      if p.metricId == m then
        match acc with
        | none => some p
        | some b => if b.createdAt < p.createdAt then some p else some b
      else acc)
    none

/-- The rows eligible as "last settled" predecessor for metric `m`:
`where: { metricId, status: "settled" }`. -/
def qualSettled (m : Nat) (s : Stock) : Prop :=
  s.metricId = m ∧ s.status = StockStatus.settled

instance (m : Nat) (s : Stock) : Decidable (qualSettled m s) := by
  unfold qualSettled; exact inferInstance

/-- `order: [["updatedAt", "DESC"], ["id", "DESC"]]`: `a` sorts strictly
before `b` (is "more recent") in this ordering. -/
def settledLater (a b : Stock) : Prop :=
  b.updatedAt < a.updatedAt ∨ (a.updatedAt = b.updatedAt ∧ b.id < a.id)

instance (a b : Stock) : Decidable (settledLater a b) := by
  unfold settledLater; exact inferInstance

/-- One step of the maximum scan implementing
`Stock.findOne({where: {metricId, status: "settled"}, order: [[updatedAt, DESC], [id, DESC]]})`. -/
def pickLastSettled (m : Nat) (acc : Option Stock) (s : Stock) : Option Stock :=
  if qualSettled m s then
    match acc with
    | none => some s
    | some b => if settledLater s b then some s else some b
  else acc

/-- The settled row for metric `m` that is most recent by
`(updatedAt, id)` descending — the batch settlement path's predecessor query. -/
def findLastSettled (m : Nat) (l : List Stock) : Option Stock :=
  l.foldl (pickLastSettled m) none

/-- One step of the maximum scan for the single-movement paths, which order
by `createdAt DESC` only. -/
def pickLastSettledByCreation (m : Nat) (acc : Option Stock) (s : Stock) : Option Stock :=
  if qualSettled m s then
    match acc with
    | none => some s
    | some b => if b.createdAt < s.createdAt then some s else some b
  else acc

/-- `Stock.findOne({where: {metricId, status: "settled"}, order: [["createdAt", "DESC"]]})`
as used by `settlingStock` and `createStock`. -/
def findLastSettledByCreation (m : Nat) (l : List Stock) : Option Stock :=
  l.foldl (pickLastSettledByCreation m) none

/-- The per-item payload of a creation request. -/
structure ItemData where
  metricId : Nat
  stockEvent : StockEvent
  amount : Rat
  salesId : Option Nat
  subAgentId : Option Nat
  agentId : Option Nat
  shopId : Option Nat
deriving DecidableEq, Repr

/-- Failure of creating one stock row. -/
inductive CreateErr
  | noPriceAvailable (metricId : Nat)
deriving DecidableEq, Repr

/-- Error message stored on the batch when creation fails (metric id elided
from the formatted source message). -/
def createErrMsg : CreateErr → String
  | .noPriceAvailable _ => "No price available for metricId"

/-- `_internalCreateSingleStock`: fetches the latest price (failing when none
exists) and appends one `created` row with the price snapshot captured.
`newId` stands for the generated UUID primary key, `now` for the creation
timestamp. -/
def internalCreateSingleStock (item : ItemData) (prices : List Price) (username : String)
    (batchId : Nat) (newId : Nat) (now : Nat) : Except CreateErr Stock :=
  match latestPriceFor item.metricId prices with
  | none => .error (.noPriceAvailable item.metricId)
  | some lp =>
    .ok
      { id := newId
        metricId := item.metricId
        stockEvent := item.stockEvent
        initialAmount := none
        amount := item.amount
        updateAmount := none
        totalPrice := item.amount * lp.price
        totalNetPrice := item.amount * lp.netPrice
        salesmanPrice := if item.salesId.isSome then item.amount * lp.salesmanPrice else 0
        subAgentPrice := if item.subAgentId.isSome then item.amount * lp.subAgentPrice else 0
        agentPrice := if item.agentId.isSome then item.amount * lp.agentPrice else 0
        totalDistributorShare := 0
        totalSalesShare := some 0
        totalSubAgentShare := some 0
        totalAgentShare := some 0
        totalShopShare := some 0
        createdBy := username
        canceledBy := none
        settledBy := none
        salesId := item.salesId
        subAgentId := item.subAgentId
        agentId := item.agentId
        shopId := item.shopId
        status := .created
        stockBatchId := some batchId
        createdAt := now
        updatedAt := now }

/-- Outcome of the single-movement `createStock` controller.  Failure
constructors return the database unchanged (the handler returns before any
write). -/
inductive CreateStockOutcome
  | noPrice (db : DB)
  | ok (db : DB) (s : Stock)
deriving DecidableEq, Repr

/-- The stock row of a successful `createStock` call, if any. -/
def createOutcomeStock : CreateStockOutcome → Option Stock
  | .noPrice _ => none
  | .ok _ s => some s

/-- `initialAmount` pre-computed by `createStock` (single-movement creation)
from the last settled row of the metric by `createdAt`.  JS truthiness:
`lastStock.updateAmount && stockEvent === 'stock_in' ? lastStock.updateAmount
: null`, so a `null` or `0` previous level, or a `stock_out`, yields `null`. -/
def createStockInitialAmount (item : ItemData) (stocks : List Stock) : Option Rat :=
  match findLastSettledByCreation item.metricId stocks with
  | none => none
  | some ls =>
    match ls.updateAmount with
    | none => none
    | some v => if v ≠ 0 ∧ item.stockEvent = .stock_in then some v else none

/-- `updateAmount` pre-computed by `createStock` (JS `null + amount` coerces
`null` to `0`). -/
def createStockUpdateAmount (item : ItemData) (stocks : List Stock) : Option Rat :=
  if item.stockEvent = .stock_in then
    some ((createStockInitialAmount item stocks).getD 0 + item.amount)
  else none

/-- The row appended by a successful `createStock` call. -/
def createStockRow (item : ItemData) (db : DB) (username : String) (lp : Price) : Stock :=
  { id := db.nextStockId
    metricId := item.metricId
    stockEvent := item.stockEvent
    initialAmount := createStockInitialAmount item db.stocks
    amount := item.amount
    updateAmount := createStockUpdateAmount item db.stocks
    totalPrice := item.amount * lp.price
    totalNetPrice := item.amount * lp.netPrice
    salesmanPrice := if item.salesId.isSome then item.amount * lp.salesmanPrice else 0
    subAgentPrice := if item.subAgentId.isSome then item.amount * lp.subAgentPrice else 0
    agentPrice := if item.agentId.isSome then item.amount * lp.agentPrice else 0
    totalDistributorShare := 0
    totalSalesShare := none
    totalSubAgentShare := none
    totalAgentShare := none
    totalShopShare := none
    createdBy := username
    canceledBy := none
    settledBy := none
    salesId := item.salesId
    subAgentId := item.subAgentId
    agentId := item.agentId
    shopId := item.shopId
    status := .created
    stockBatchId := none
    createdAt := db.clock
    updatedAt := db.clock }

/-- `createStock` (single-movement creation): pre-computes running-balance
fields for `stock_in`, captures the latest price (failing when none exists),
and appends a `created` row. -/
def createStock (item : ItemData) (db : DB) (username : String) : CreateStockOutcome :=
  match latestPriceFor item.metricId db.prices with
  | none => .noPrice db
  | some lp =>
    .ok
      { db with stocks := db.stocks ++ [createStockRow item db username lp],
                clock := db.clock + 1, nextStockId := db.nextStockId + 1 }
      (createStockRow item db username lp)

/-- The commission fields computed at settlement. -/
structure CommissionResult where
  distributorPercentage : Rat
  totalDistributorShare : Rat
  totalSalesShare : Option Rat
  totalSubAgentShare : Option Rat
  totalAgentShare : Option Rat
  totalShopShare : Option Rat
deriving DecidableEq, Repr

/-- Whether the movement carries a seller reference
(`salesId || subAgentId || agentId`). -/
def sellerPresent (salesId subAgentId agentId : Option Nat) : Prop :=
  salesId.isSome ∨ subAgentId.isSome ∨ agentId.isSome

instance (a b c : Option Nat) : Decidable (sellerPresent a b c) := by
  unfold sellerPresent; exact inferInstance

/-- Seller-branch part of the commission calculation of
`_internalSettleSingleStock`.  All percentage accesses carry the `|| 0`
default.  For an agent the shop percentage is left out of the distributor
subtraction. -/
def internalSettleBase (tnp : Rat) (salesId subAgentId agentId : Option Nat)
    (pm : PercentageMap) : CommissionResult :=
  if salesId.isSome then
    { distributorPercentage := 100 - pmGet pm.supplier - pmGet pm.shop - pmGet pm.salesman
      totalDistributorShare :=
        tnp * (100 - pmGet pm.supplier - pmGet pm.shop - pmGet pm.salesman) / 100
      totalSalesShare := some (tnp * pmGet pm.salesman / 100)
      totalSubAgentShare := none
      totalAgentShare := none
      totalShopShare := none }
  else if subAgentId.isSome then
    { distributorPercentage := 100 - pmGet pm.supplier - pmGet pm.shop - pmGet pm.subAgent
      totalDistributorShare :=
        tnp * (100 - pmGet pm.supplier - pmGet pm.shop - pmGet pm.subAgent) / 100
      totalSalesShare := none
      totalSubAgentShare := some (tnp * pmGet pm.subAgent / 100)
      totalAgentShare := none
      totalShopShare := none }
  else if agentId.isSome then
    { distributorPercentage := 100 - pmGet pm.supplier - pmGet pm.agent
      totalDistributorShare := tnp * (100 - pmGet pm.supplier - pmGet pm.agent) / 100
      totalSalesShare := none
      totalSubAgentShare := none
      totalAgentShare := some (tnp * pmGet pm.agent / 100)
      totalShopShare := none }
  else
    { distributorPercentage := 0
      totalDistributorShare := 0
      totalSalesShare := none
      totalSubAgentShare := none
      totalAgentShare := none
      totalShopShare := none }

/-- Commission calculation of `_internalSettleSingleStock`: the seller
branches plus the shop share, computed only for a `stock_out` with a seller
reference. -/
def internalSettleCommission (tnp : Rat) (salesId subAgentId agentId : Option Nat)
    (ev : StockEvent) (pm : PercentageMap) : CommissionResult :=
  if ev = .stock_out ∧ sellerPresent salesId subAgentId agentId then
    { internalSettleBase tnp salesId subAgentId agentId pm with
      totalShopShare := some (tnp * pmGet pm.shop / 100) }
  else internalSettleBase tnp salesId subAgentId agentId pm

/-- Failure of settling one stock row in the batch path. -/
inductive SettleErr
  | notCreated (id : Nat)
  | insufficientStock (metricId : Nat) (id : Nat)
deriving DecidableEq, Repr

/-- Error message stored on the batch when settlement fails (ids elided from
the formatted source message). -/
def settleErrMsg : SettleErr → String
  | .notCreated _ => "Stock is not in created status"
  | .insufficientStock _ _ => "Not enough stock"

/-- `initialAmountAtSettlement`: `updateAmount` of the most recently settled
row for the metric (`|| 0` on a null value), defaulting to `0`. -/
def settleInitial (s : Stock) (stocks : List Stock) : Rat :=
  match findLastSettled s.metricId stocks with
  | none => 0
  | some last => last.updateAmount.getD 0

/-- `updateAmountAtSettlement`. -/
def settleUpdate (s : Stock) (stocks : List Stock) : Rat :=
  if s.stockEvent = .stock_in then settleInitial s stocks + s.amount
  else settleInitial s stocks - s.amount

/-- The row produced by a successful `_internalSettleSingleStock`. -/
def settledResult (s : Stock) (stocks : List Stock) (pm : PercentageMap)
    (now : Nat) (username : String) : Stock :=
  let c := internalSettleCommission s.totalNetPrice s.salesId s.subAgentId s.agentId
            s.stockEvent pm
  { s with
    status := .settled
    initialAmount := some (settleInitial s stocks)
    updateAmount := some (settleUpdate s stocks)
    totalDistributorShare := c.totalDistributorShare
    totalSalesShare := c.totalSalesShare
    totalSubAgentShare := c.totalSubAgentShare
    totalAgentShare := c.totalAgentShare
    totalShopShare := c.totalShopShare
    settledBy := some username
    updatedAt := now }

/-- `_internalSettleSingleStock`: refuses a non-`created` row, computes the
running level from the last settled row of the metric, refuses a `stock_out`
that would go negative, computes commissions from the *stored*
`totalNetPrice`, and flips the row to `settled`. -/
def internalSettleSingleStock (s : Stock) (stocks : List Stock) (pm : PercentageMap)
    (now : Nat) (username : String) : Except SettleErr Stock :=
  if s.status ≠ .created then .error (.notCreated s.id)
  else if s.stockEvent = .stock_out ∧ settleUpdate s stocks < 0 then
    .error (.insufficientStock s.metricId s.id)
  else .ok (settledResult s stocks pm now username)

/-- Commission calculation of `settlingStock` (single-movement path).  The
branch structure matches the batch path, but the shop share is computed for
*every* `stock_out`, seller reference or not.  The source reads the
percentage map without the `|| 0` default here; a missing key would poison
the JS arithmetic with `NaN`, and the theorems below always supply the keys,
where the two readings coincide. -/
def settlingStockBase (tnp : Rat) (salesId subAgentId agentId : Option Nat)
    (pm : PercentageMap) : CommissionResult :=
  if salesId.isSome then
    { distributorPercentage := 100 - pmGet pm.supplier - pmGet pm.shop - pmGet pm.salesman
      totalDistributorShare :=
        tnp * (100 - pmGet pm.supplier - pmGet pm.shop - pmGet pm.salesman) / 100
      totalSalesShare := some (tnp * (pmGet pm.salesman / 100))
      totalSubAgentShare := none
      totalAgentShare := none
      totalShopShare := none }
  else if subAgentId.isSome then
    { distributorPercentage := 100 - pmGet pm.supplier - pmGet pm.shop - pmGet pm.subAgent
      totalDistributorShare :=
        tnp * (100 - pmGet pm.supplier - pmGet pm.shop - pmGet pm.subAgent) / 100
      totalSalesShare := none
      totalSubAgentShare := some (tnp * (pmGet pm.subAgent / 100))
      totalAgentShare := none
      totalShopShare := none }
  else if agentId.isSome then
    { distributorPercentage := 100 - pmGet pm.supplier - pmGet pm.agent
      totalDistributorShare := tnp * (100 - pmGet pm.supplier - pmGet pm.agent) / 100
      totalSalesShare := none
      totalSubAgentShare := none
      totalAgentShare := some (tnp * (pmGet pm.agent / 100))
      totalShopShare := none }
  else
    { distributorPercentage := 0
      totalDistributorShare := 0
      totalSalesShare := none
      totalSubAgentShare := none
      totalAgentShare := none
      totalShopShare := none }

/-- Commission calculation of `settlingStock`: the seller branches plus the
shop share, computed for *every* `stock_out`, seller reference or not. -/
def settlingStockCommission (tnp : Rat) (salesId subAgentId agentId : Option Nat)
    (ev : StockEvent) (pm : PercentageMap) : CommissionResult :=
  if ev = .stock_out then
    { settlingStockBase tnp salesId subAgentId agentId pm with
      totalShopShare := some (tnp * (pmGet pm.shop / 100)) }
  else settlingStockBase tnp salesId subAgentId agentId pm

/-- `initialAmount` of the single-movement path: `updateAmount` of the last
settled row *by `createdAt`* (JS truthiness `lastStock.updateAmount ? _ : 0`
sends both `null` and `0` to `0`). -/
def settlingInitial (metricId : Nat) (stocks : List Stock) : Rat :=
  match findLastSettledByCreation metricId stocks with
  | none => 0
  | some last => last.updateAmount.getD 0

/-- `updateAmount` of the single-movement path. -/
def settlingUpdate (st : Stock) (metricId : Nat) (stocks : List Stock) : Rat :=
  if st.stockEvent = .stock_in then settlingInitial metricId stocks + st.amount
  else settlingInitial metricId stocks - st.amount

/-- Net-price basis recomputed by `settlingStock`:
`totalNetPrice = totalPrice * (100 / percentageMap["supplier"])` with
`totalPrice = amount * latestPrice.price`. -/
def settlingNetPrice (st : Stock) (lp : Price) (pm : PercentageMap) : Rat :=
  (st.amount * lp.price) * (100 / pmGet pm.supplier)

/-- The row produced by a successful `settlingStock` call.  Unlike the batch
path it does not stamp `settledBy`. -/
def settlingSettledStock (st : Stock) (metricId : Nat) (stocks : List Stock)
    (lp : Price) (pm : PercentageMap) (now : Nat) : Stock :=
  let c := settlingStockCommission (settlingNetPrice st lp pm) st.salesId st.subAgentId
            st.agentId st.stockEvent pm
  { st with
    status := .settled
    initialAmount := some (settlingInitial metricId stocks)
    updateAmount := some (settlingUpdate st metricId stocks)
    totalDistributorShare := c.totalDistributorShare
    totalSalesShare := c.totalSalesShare
    totalSubAgentShare := c.totalSubAgentShare
    totalAgentShare := c.totalAgentShare
    totalShopShare := c.totalShopShare
    updatedAt := now }

/-- `stock.save()` inside a transaction: replace the row with the same id. -/
def replaceStock (l : List Stock) (s : Stock) : List Stock :=
  l.map (fun t => if t.id == s.id then s else t)

/-- Outcome of the `settlingStock` controller.  Every failure constructor
returns the database unchanged: the handler returns before `stock.save()`. -/
inductive SingleSettleOutcome
  | notFound (db : DB)
  | notEnoughStock (db : DB)
  | noPrice (db : DB)
  | settled (db : DB) (s : Stock)
deriving DecidableEq, Repr

/-- The settled stock row of a successful `settlingStock` call, if any. -/
def singleOutcomeStock : SingleSettleOutcome → Option Stock
  | .settled _ s => some s
  | _ => none

/-- `settlingStock` (single-movement settle-by-id): requires a row matching
`{id, status: "created"}`, rejects *any* negative `updateAmount`, requires a
latest price (used to recompute the net-price basis), computes commissions,
and saves the settled row. -/
def settlingStock (id metricId : Nat) (db : DB) ( _username : String) : SingleSettleOutcome :=
  match db.stocks.find? (fun t => t.id == id && t.status == StockStatus.created) with
  | none => .notFound db
  | some st =>
    if settlingUpdate st metricId db.stocks < 0 then .notEnoughStock db
    else
      match latestPriceFor metricId db.prices with
      | none => .noPrice db
      | some lp =>
        .settled
          { db with
            stocks := replaceStock db.stocks
              (settlingSettledStock st metricId db.stocks lp db.percentages db.clock),
            clock := db.clock + 1 }
          (settlingSettledStock st metricId db.stocks lp db.percentages db.clock)

/-- `StockBatch.findByPk`. -/
def findBatch (batchId : Nat) (l : List StockBatch) : Option StockBatch :=
  l.find? (fun b => b.id == batchId)

/-- `Stock.findAll({where: {stockBatchId: batchId, status: 'created'}})`:
the rows of a batch still awaiting settlement (or cancellation). -/
def createdStocksOf (batchId : Nat) (db : DB) : List Stock :=
  db.stocks.filter (fun s => s.stockBatchId == some batchId && s.status == StockStatus.created)

/-- Sequentially create all requested rows inside one transaction; the first
failure aborts the whole traversal. -/
def createAllStocks (items : List ItemData) (prices : List Price) (username : String)
    (batchId : Nat) (firstId : Nat) (now : Nat) : Except CreateErr (List Stock) :=
  match items with
  | [] => .ok []
  | it :: rest =>
    match internalCreateSingleStock it prices username batchId firstId now with
    | .error e => .error e
    | .ok s =>
      match createAllStocks rest prices username batchId (firstId + 1) now with
      | .error e => .error e
      | .ok l => .ok (s :: l)

/-- Outcome of `createStockBatch`.  `failed` carries the rolled-back
database (no created row persists) with only the batch record updated. -/
inductive CreateBatchOutcome
  | emptyRequest (db : DB)
  | ok (db : DB) (batchId : Nat) (created : List Stock)
  | failed (db : DB) (batchId : Nat) (e : CreateErr)
deriving DecidableEq, Repr

/-- The `StockBatch` row created in `processing` state before the stock
transaction opens. -/
def initialBatchRecord (items : List ItemData) (db : DB) (username : String) : StockBatch :=
  { id := db.nextBatchId, batchType := "stock_creation", status := .processing
    itemCount := items.length, successCount := none, failureCount := none
    errorMessage := none, createdBy := username, canceledBy := none }

/-- `createStockBatch`: creates the batch record in `processing` state
outside the stock transaction, then creates every movement inside one
transaction; on success the batch becomes `completed` with the counts
recorded, on any failure the transaction rolls back and the batch becomes
`failed` with the error message captured. -/
def createStockBatch (items : List ItemData) (db : DB) (username : String) : CreateBatchOutcome :=
  if items.isEmpty then .emptyRequest db
  else
    match createAllStocks items db.prices username db.nextBatchId db.nextStockId db.clock with
    | .ok newStocks =>
      .ok
        { db with
          stocks := db.stocks ++ newStocks
          nextStockId := db.nextStockId + newStocks.length
          clock := db.clock + 1
          nextBatchId := db.nextBatchId + 1
          batches := (db.batches ++ [initialBatchRecord items db username]).map (fun b =>
            if b.id = db.nextBatchId then
              { b with status := .completed, successCount := some newStocks.length,
                       failureCount := some 0 }
            else b) }
        db.nextBatchId newStocks
    | .error e =>
      .failed
        { db with
          nextBatchId := db.nextBatchId + 1
          batches := (db.batches ++ [initialBatchRecord items db username]).map (fun b =>
            if b.id = db.nextBatchId then
              { b with status := .failed, successCount := some 0,
                       failureCount := some b.itemCount,
                       errorMessage := some (createErrMsg e) }
            else b) }
        db.nextBatchId e

/-- Settle the fetched `created` rows sequentially inside one transaction,
threading the transaction-local view of the table and the clock; the first
failure aborts. -/
def settleList (username : String) (items : List Stock) (db : DB) : Except SettleErr DB :=
  match items with
  | [] => .ok db
  | s :: rest =>
    match internalSettleSingleStock s db.stocks db.percentages db.clock username with
    | .error e => .error e
    | .ok s1 =>
      settleList username rest
        { db with stocks := replaceStock db.stocks s1, clock := db.clock + 1 }

/-- The batch update performed after a settlement rollback:
`StockBatch.update({status: 'failed', errorMessage}, {where: {id, status not
'settled'}})`. -/
def markBatchFailedUnlessSettled (batches : List StockBatch) (batchId : Nat)
    (msg : String) : List StockBatch :=
  batches.map (fun b =>
    if b.id = batchId ∧ b.status ≠ BatchStatus.settled then
      { b with status := .failed, errorMessage := some msg }
    else b)

/-- Outcome of `settleStockBatch`.  Failure constructors carry the database
after rollback (stocks untouched, batch possibly marked). -/
inductive SettleBatchOutcome
  | notFound (db : DB)
  | wrongState (db : DB) (st : BatchStatus)
  | noItems (db : DB)
  | ok (db : DB) (count : Nat)
  | failed (db : DB) (e : SettleErr)
deriving DecidableEq, Repr

/-- `settleStockBatch`: locks and validates the batch (must be `completed`),
loads its `created` rows, settles them sequentially, and marks the batch
`settled`; with no rows to settle the batch is marked `settled` directly;
on any settlement failure the transaction rolls back and the batch is marked
`failed` unless its status is already `settled`. -/
def settleStockBatch (batchId : Nat) (db : DB) (username : String) : SettleBatchOutcome :=
  match findBatch batchId db.batches with
  | none => .notFound db
  | some batch =>
    if batch.status ≠ .completed then .wrongState db batch.status
    else
      if (createdStocksOf batchId db).isEmpty then
        .noItems
          { db with batches := db.batches.map (fun b =>
              if b.id = batchId then { b with status := .settled } else b) }
      else
        match settleList username (createdStocksOf batchId db) db with
        | .ok db1 =>
          .ok
            { db1 with batches := db1.batches.map (fun b =>
                if b.id = batchId then
                  { b with status := .settled,
                           successCount := some (createdStocksOf batchId db).length,
                           failureCount := some 0 }
                else b) }
            (createdStocksOf batchId db).length
        | .error e =>
          .failed
            { db with batches := markBatchFailedUnlessSettled db.batches batchId
                                   (settleErrMsg e) }
            e

/-- Outcome of `cancelStockBatch`. -/
inductive CancelBatchOutcome
  | notFound (db : DB)
  | notCancelable (db : DB) (st : BatchStatus)
  | ok (db : DB) (affected : Nat)
deriving DecidableEq, Repr

/-- `cancelStockBatch`: permitted only for a batch in `completed` or
`processing` status; transactionally flips every `created` row of the batch
to `canceled` and the batch itself to `canceled`. -/
def cancelStockBatch (batchId : Nat) (db : DB) (username : String) : CancelBatchOutcome :=
  match findBatch batchId db.batches with
  | none => .notFound db
  | some batch =>
    if batch.status ≠ .completed ∧ batch.status ≠ .processing then
      .notCancelable db batch.status
    else
      .ok
        { db with
          stocks := db.stocks.map (fun s =>
            if s.stockBatchId = some batchId ∧ s.status = StockStatus.created then
              { s with status := .canceled, canceledBy := some username }
            else s),
          batches := db.batches.map (fun b =>
            if b.id = batchId then { b with status := .canceled, canceledBy := some username }
            else b) }
        (createdStocksOf batchId db).length

/-! ### Concrete sample data used by the closed evaluation theorems below -/

/-- Sample percentage table: supplier 50, shop 20, salesman 10, subAgent 12,
agent 15. -/
def exPM : PercentageMap :=
  { supplier := some 50, shop := some 20, salesman := some 10,
    subAgent := some 12, agent := some 15 }

/-- A template `created` stock row; samples override individual fields. -/
def exBase : Stock :=
  { id := 0, metricId := 1, stockEvent := .stock_in, initialAmount := none, amount := 1,
    updateAmount := none, totalPrice := 0, totalNetPrice := 0, salesmanPrice := 0,
    subAgentPrice := 0, agentPrice := 0, totalDistributorShare := 0, totalSalesShare := none,
    totalSubAgentShare := none, totalAgentShare := none, totalShopShare := none,
    createdBy := "u", canceledBy := none, settledBy := none, salesId := none,
    subAgentId := none, agentId := none, shopId := none, status := .created,
    stockBatchId := none, createdAt := 0, updatedAt := 0 }

/-- Sample price row for metric 1. -/
def exPrice : Price :=
  { metricId := 1, price := 10, netPrice := 3, salesmanPrice := 2, subAgentPrice := 2,
    agentPrice := 2, createdAt := 0 }

def exC1A : Stock := { exBase with id := 1, amount := 4, stockBatchId := some 0 }

def exC1B : Stock := { exBase with id := 2, amount := 3, stockBatchId := some 0 }

def exC1Stocks : List Stock := [exC1A, exC1B]

/-- The row produced by settling `exC1A` first, at clock 5. -/
def exC1ARes : Stock := settledResult exC1A exC1Stocks exPM 5 "u"

/-- A `completed` batch with id 0. -/
def exBatch : StockBatch :=
  { id := 0, batchType := "stock_creation", status := .completed, itemCount := 1,
    successCount := some 1, failureCount := some 0, errorMessage := none,
    createdBy := "u", canceledBy := none }

/-- A `settled` batch with id 7 (untouched by failure handling). -/
def exSettledBatch : StockBatch :=
  { id := 7, batchType := "stock_creation", status := .settled, itemCount := 2,
    successCount := some 2, failureCount := some 0, errorMessage := none,
    createdBy := "u", canceledBy := none }

/-- A `created` `stock_out` row of batch 0 whose settlement must fail (no
stock on hand). -/
def exOut5 : Stock :=
  { exBase with
    id := 1
    stockEvent := .stock_out
    amount := 5
    stockBatchId := some 0 }

def exC2DB : DB :=
  { stocks := [exOut5], batches := [exBatch, exSettledBatch], prices := [],
    percentages := exPM, clock := 3, nextStockId := 2, nextBatchId := 8 }

def exC3Stock : Stock := { exBase with agentId := some 7, totalNetPrice := 100 }

/-- A settled predecessor with 10 on hand. -/
def exC4Prior : Stock :=
  { exBase with
    id := 10
    status := .settled
    initialAmount := some 0
    updateAmount := some 10
    updatedAt := 0 }

def exC4Stock : Stock :=
  { exBase with
    id := 1
    stockEvent := .stock_out
    amount := 3
    totalNetPrice := 100 }

def exC4Sales : Stock :=
  { exBase with
    id := 2
    stockEvent := .stock_out
    amount := 3
    totalNetPrice := 100
    salesId := some 5 }

def exC5Stock : Stock :=
  { exBase with
    id := 1
    salesId := some 2
    amount := 2
    totalNetPrice := 6
    totalPrice := 20 }

def exC5DB : DB :=
  { stocks := [exC5Stock], batches := [], prices := [exPrice], percentages := exPM,
    clock := 5, nextStockId := 2, nextBatchId := 0 }

/-- A movement aligned so that both settlement paths agree: `stock_out` with
a salesman, stored `totalNetPrice` equal to the recomputed basis
`(2 * 10) * (100 / 50) = 40`. -/
def exC5W : Stock :=
  { exBase with
    id := 1
    stockEvent := .stock_out
    salesId := some 2
    amount := 2
    totalNetPrice := 40
    totalPrice := 20 }

def exC5WPrior : Stock :=
  { exBase with
    id := 9
    status := .settled
    initialAmount := some 0
    updateAmount := some 10 }

def exC5WDB : DB :=
  { stocks := [exC5WPrior, exC5W], batches := [], prices := [exPrice], percentages := exPM,
    clock := 5, nextStockId := 10, nextBatchId := 0 }

def exItemIn5 : ItemData :=
  { metricId := 1, stockEvent := .stock_in, amount := 5, salesId := none,
    subAgentId := none, agentId := none, shopId := none }

/-- An item whose metric (2) has no price row. -/
def exItemBad : ItemData :=
  { metricId := 2, stockEvent := .stock_in, amount := 5, salesId := none,
    subAgentId := none, agentId := none, shopId := none }

def exC6DB : DB :=
  { stocks := [], batches := [], prices := [exPrice], percentages := exPM,
    clock := 0, nextStockId := 0, nextBatchId := 0 }

/-- An already-settled row (double settlement must fail). -/
def exSettledStock : Stock :=
  { exBase with
    id := 3
    status := .settled
    initialAmount := some 0
    updateAmount := some 5
    updatedAt := 1 }

def exC7DB : DB :=
  { stocks := [exSettledStock], batches := [], prices := [exPrice], percentages := exPM,
    clock := 2, nextStockId := 4, nextBatchId := 0 }

/-- A batch-0 `created` row settleable as stock_in. -/
def exIn4 : Stock := { exBase with id := 1, amount := 4, stockBatchId := some 0 }

def exC9DB : DB :=
  { stocks := [exIn4, { exBase with id := 2, stockBatchId := some 0 }],
    batches := [exBatch], prices := [], percentages := exPM,
    clock := 3, nextStockId := 3, nextBatchId := 1 }

/-- Result of settling `exC1B` after `exC1A`, at clock 6. -/
def exC1BRes : Stock := settledResult exC1B (replaceStock exC1Stocks exC1ARes) exPM 6 "u"

/-- The database after the failed settlement of batch 0: stocks rolled back,
batch 0 marked `failed`. -/
def exC2FailedDB : DB :=
  { exC2DB with
    batches := markBatchFailedUnlessSettled exC2DB.batches 0
      (settleErrMsg (.insufficientStock 1 1)) }

def exC5BatchRes : Stock := settledResult exC5Stock exC5DB.stocks exPM 5 "u"

def exC5SingleRes : Stock := settlingSettledStock exC5Stock 1 exC5DB.stocks exPrice exPM 5

def exC5SingleDB : DB :=
  { exC5DB with stocks := replaceStock exC5DB.stocks exC5SingleRes, clock := 6 }

def exC5WSingleRes : Stock := settlingSettledStock exC5W 1 exC5WDB.stocks exPrice exPM 5

def exC5WSingleDB : DB :=
  { exC5WDB with stocks := replaceStock exC5WDB.stocks exC5WSingleRes, clock := 6 }

def exC6Row : Stock := createStockRow exItemIn5 exC6DB "u" exPrice

def exC6DBAfter : DB :=
  { exC6DB with stocks := exC6DB.stocks ++ [exC6Row], clock := 1, nextStockId := 1 }

/-- `exC9DB` after cancellation of batch 0. -/
def exC9CanceledDB : DB :=
  { exC9DB with
    stocks := exC9DB.stocks.map (fun s =>
      if s.stockBatchId = some 0 ∧ s.status = StockStatus.created then
        { s with status := .canceled, canceledBy := some "u" }
      else s)
    batches := exC9DB.batches.map (fun b =>
      if b.id = 0 then { b with status := .canceled, canceledBy := some "u" } else b) }

/-- An aligned agent-seller movement: `stock_out` with an agent reference,
stored `totalNetPrice` equal to the recomputed basis
`(2 * 10) * (100 / 50) = 40`. -/
def exC5WAgent : Stock :=
  { exBase with
    id := 4
    stockEvent := .stock_out
    agentId := some 3
    amount := 2
    totalNetPrice := 40
    totalPrice := 20 }

def exC5ADB : DB :=
  { stocks := [exC5WPrior, exC5WAgent], batches := [], prices := [exPrice],
    percentages := exPM, clock := 5, nextStockId := 10, nextBatchId := 0 }

def exC5ASingleRes : Stock := settlingSettledStock exC5WAgent 1 exC5ADB.stocks exPrice exPM 5

/-! ### Properties of the predecessor query (`findLastSettled`) -/

theorem settledLater_irrefl (a : Stock) : ¬ settledLater a a := by
  unfold settledLater; omega

theorem settledLater_trans {a b c : Stock} (h1 : settledLater a b)
    (h2 : settledLater b c) : settledLater a c := by
  unfold settledLater at h1 h2 ⊢; omega

theorem notSettledLater_trans {a b c : Stock} (h1 : ¬ settledLater a b)
    (h2 : ¬ settledLater b c) : ¬ settledLater a c := by
  unfold settledLater at h1 h2 ⊢; omega

/-- Fold invariant behind `findLastSettled`: the result is a qualifying
element of the list (or the seed), and nothing scanned is strictly more
recent than it. -/
theorem foldPick_spec (m : Nat) :
    ∀ (l : List Stock) (acc : Option Stock) (t : Stock),
      l.foldl (pickLastSettled m) acc = some t →
      ((t ∈ l ∧ qualSettled m t) ∨ acc = some t) ∧
      (∀ r ∈ l, qualSettled m r → ¬ settledLater r t) ∧
      (∀ b, acc = some b → ¬ settledLater b t) := by
  intro l
  induction l with
  | nil =>
    intro acc t h
    simp only [List.foldl_nil] at h
    refine ⟨Or.inr h, ?_, ?_⟩
    · intro r hr; simp at hr
    · intro b hb
      rw [h] at hb
      cases hb
      exact settledLater_irrefl t
  | cons a l ih =>
    intro acc t h
    simp only [List.foldl_cons] at h
    obtain ⟨hmem, hall, hacc⟩ := ih (pickLastSettled m acc a) t h
    by_cases hq : qualSettled m a
    · cases acc with
      | none =>
        have hpick : pickLastSettled m none a = some a := by
          simp [pickLastSettled, hq]
        rw [hpick] at hmem hacc
        have hat : ¬ settledLater a t := hacc a rfl
        refine ⟨?_, ?_, ?_⟩
        · rcases hmem with h1 | h1
          · exact Or.inl ⟨List.mem_cons_of_mem a h1.1, h1.2⟩
          · cases h1; exact Or.inl ⟨List.mem_cons_self a l, hq⟩
        · intro r hr hqr
          rcases List.mem_cons.mp hr with h1 | h1
          · subst h1; exact hat
          · exact hall r h1 hqr
        · intro b hb; cases hb
      | some b =>
        by_cases hl : settledLater a b
        · have hpick : pickLastSettled m (some b) a = some a := by
            simp [pickLastSettled, hq, hl]
          rw [hpick] at hmem hacc
          have hat : ¬ settledLater a t := hacc a rfl
          refine ⟨?_, ?_, ?_⟩
          · rcases hmem with h1 | h1
            · exact Or.inl ⟨List.mem_cons_of_mem a h1.1, h1.2⟩
            · cases h1; exact Or.inl ⟨List.mem_cons_self a l, hq⟩
          · intro r hr hqr
            rcases List.mem_cons.mp hr with h1 | h1
            · subst h1; exact hat
            · exact hall r h1 hqr
          · intro b0 hb0
            cases hb0
            intro hbt
            exact hat (settledLater_trans hl hbt)
        · have hpick : pickLastSettled m (some b) a = some b := by
            simp [pickLastSettled, hq, hl]
          rw [hpick] at hmem hacc
          have hbt : ¬ settledLater b t := hacc b rfl
          refine ⟨?_, ?_, ?_⟩
          · rcases hmem with h1 | h1
            · exact Or.inl ⟨List.mem_cons_of_mem a h1.1, h1.2⟩
            · exact Or.inr h1
          · intro r hr hqr
            rcases List.mem_cons.mp hr with h1 | h1
            · subst h1; exact notSettledLater_trans hl hbt
            · exact hall r h1 hqr
          · intro b0 hb0; cases hb0; exact hbt
    · have hpick : pickLastSettled m acc a = acc := by
        simp [pickLastSettled, hq]
      rw [hpick] at hmem hacc
      refine ⟨?_, ?_, ?_⟩
      · rcases hmem with h1 | h1
        · exact Or.inl ⟨List.mem_cons_of_mem a h1.1, h1.2⟩
        · exact Or.inr h1
      · intro r hr hqr
        rcases List.mem_cons.mp hr with h1 | h1
        · subst h1; exact absurd hqr hq
        · exact hall r h1 hqr
      · exact hacc

/-- `findLastSettled` returns a settled row of the metric that no other
settled row of the metric beats in the `(updatedAt, id)` descending order. -/
theorem findLastSettled_spec {m : Nat} {l : List Stock} {t : Stock}
    (h : findLastSettled m l = some t) :
    t ∈ l ∧ qualSettled m t ∧ ∀ r ∈ l, qualSettled m r → ¬ settledLater r t := by
  obtain ⟨h1, h2, _⟩ := foldPick_spec m l none t h
  rcases h1 with h1 | h1
  · exact ⟨h1.1, h1.2, h2⟩
  · simp at h1

/-- Once the scan holds a candidate it never returns `none`. -/
theorem foldPick_ne_none (m : Nat) :
    ∀ (l : List Stock) (b : Stock), l.foldl (pickLastSettled m) (some b) ≠ none := by
  intro l
  induction l with
  | nil => intro b h; simp at h
  | cons a l ih =>
    intro b h
    simp only [List.foldl_cons] at h
    by_cases hq : qualSettled m a
    · by_cases hl : settledLater a b
      · rw [show pickLastSettled m (some b) a = some a by simp [pickLastSettled, hq, hl]] at h
        exact ih a h
      · rw [show pickLastSettled m (some b) a = some b by simp [pickLastSettled, hq, hl]] at h
        exact ih b h
    · rw [show pickLastSettled m (some b) a = some b by simp [pickLastSettled, hq]] at h
      exact ih b h

/-- `findLastSettled` is `none` exactly when no settled row of the metric
exists. -/
theorem findLastSettled_eq_none_iff (m : Nat) (l : List Stock) :
    findLastSettled m l = none ↔ ∀ r ∈ l, ¬ qualSettled m r := by
  unfold findLastSettled
  induction l with
  | nil => simp
  | cons a l ih =>
    simp only [List.foldl_cons]
    constructor
    · intro h
      by_cases hq : qualSettled m a
      · rw [show pickLastSettled m none a = some a by simp [pickLastSettled, hq]] at h
        exact absurd h (foldPick_ne_none m l a)
      · rw [show pickLastSettled m none a = none by simp [pickLastSettled, hq]] at h
        intro r hr
        rcases List.mem_cons.mp hr with h1 | h1
        · subst h1; exact hq
        · exact (ih.mp h) r h1
    · intro h
      have hq : ¬ qualSettled m a := h a (List.mem_cons_self a l)
      rw [show pickLastSettled m none a = none by simp [pickLastSettled, hq]]
      exact ih.mpr (fun r hr => h r (List.mem_cons_of_mem a hr))

/-- Holding a candidate that everything remaining is older than (or equal
to) keeps it. -/
theorem foldPick_fixed (m : Nat) (s : Stock) :
    ∀ l : List Stock, (∀ t ∈ l, qualSettled m t → t = s ∨ t.updatedAt < s.updatedAt) →
      l.foldl (pickLastSettled m) (some s) = some s := by
  intro l
  induction l with
  | nil => intro _; simp
  | cons a l ih =>
    intro h
    simp only [List.foldl_cons]
    have hstep : pickLastSettled m (some s) a = some s := by
      by_cases hq : qualSettled m a
      · rcases h a (List.mem_cons_self a l) hq with h1 | h1
        · subst h1; simp [pickLastSettled, hq, ite_self]
        · have hns : ¬ settledLater a s := by unfold settledLater; omega
          simp [pickLastSettled, hq, hns]
      · simp [pickLastSettled, hq]
    rw [hstep]
    exact ih (fun t ht => h t (List.mem_cons_of_mem a ht))

/-- If `s` is in the list, is settled for the metric, and is strictly more
recent than every other qualifying row, then the scan finds exactly `s`. -/
theorem foldPick_reach (m : Nat) (s : Stock) :
    ∀ l : List Stock, s ∈ l → qualSettled m s →
      (∀ t ∈ l, qualSettled m t → t = s ∨ t.updatedAt < s.updatedAt) →
      ∀ acc : Option Stock,
        (acc = none ∨ ∃ u, acc = some u ∧ (u = s ∨ u.updatedAt < s.updatedAt)) →
        l.foldl (pickLastSettled m) acc = some s := by
  intro l
  induction l with
  | nil => intro hmem; simp at hmem
  | cons a l ih =>
    intro hmem hq hall acc hacc
    simp only [List.foldl_cons]
    by_cases hqa : qualSettled m a
    · rcases hall a (List.mem_cons_self a l) hqa with ha | ha
      · subst ha
        have hstep : pickLastSettled m acc a = some a := by
          rcases hacc with h0 | ⟨u, h0, hu⟩
          · subst h0; simp [pickLastSettled, hqa]
          · subst h0
            rcases hu with hu | hu
            · subst hu; simp [pickLastSettled, hqa, ite_self]
            · have hl : settledLater a u := by unfold settledLater; omega
              simp [pickLastSettled, hqa, hl]
        rw [hstep]
        exact foldPick_fixed m a l (fun t ht => hall t (List.mem_cons_of_mem a ht))
      · have hmem2 : s ∈ l := by
          rcases List.mem_cons.mp hmem with h1 | h1
          · subst h1; omega
          · exact h1
        refine ih hmem2 hq (fun t ht => hall t (List.mem_cons_of_mem a ht))
          (pickLastSettled m acc a) ?_
        rcases hacc with h0 | ⟨u, h0, hu⟩
        · subst h0
          exact Or.inr ⟨a, by simp [pickLastSettled, hqa], Or.inr ha⟩
        · subst h0
          by_cases hl : settledLater a u
          · exact Or.inr ⟨a, by simp [pickLastSettled, hqa, hl], Or.inr ha⟩
          · exact Or.inr ⟨u, by simp [pickLastSettled, hqa, hl], hu⟩
    · have hmem2 : s ∈ l := by
        rcases List.mem_cons.mp hmem with h1 | h1
        · subst h1; exact absurd hq hqa
        · exact h1
      rw [show pickLastSettled m acc a = acc by simp [pickLastSettled, hqa]]
      exact ih hmem2 hq (fun t ht => hall t (List.mem_cons_of_mem a ht)) acc hacc

/-- A freshly settled row (newest `updatedAt` among all qualifying rows) is
what the predecessor query returns. -/
theorem findLastSettled_eq_of_fresh {m : Nat} {s : Stock} {l : List Stock}
    (hmem : s ∈ l) (hq : qualSettled m s)
    (hall : ∀ t ∈ l, qualSettled m t → t = s ∨ t.updatedAt < s.updatedAt) :
    findLastSettled m l = some s :=
  foldPick_reach m s l hmem hq hall none (Or.inl rfl)

/-! ### Shape of `_internalSettleSingleStock` results -/

theorem internalSettleSingleStock_ok_iff {s : Stock} {stocks : List Stock}
    {pm : PercentageMap} {now : Nat} {u : String} {s1 : Stock} :
    internalSettleSingleStock s stocks pm now u = .ok s1 ↔
      s.status = .created ∧ ¬(s.stockEvent = .stock_out ∧ settleUpdate s stocks < 0) ∧
        s1 = settledResult s stocks pm now u := by
  unfold internalSettleSingleStock
  by_cases h1 : s.status = .created
  · by_cases h2 : s.stockEvent = .stock_out ∧ settleUpdate s stocks < 0
    · simp [h1, h2]
    · rw [if_neg (by simp [h1]), if_neg h2]
      simp only [Except.ok.injEq]
      constructor
      · intro h; exact ⟨h1, h2, h.symm⟩
      · intro h; exact h.2.2.symm
  · simp [h1]

theorem internalSettleSingleStock_notCreated {s : Stock} {stocks : List Stock}
    {pm : PercentageMap} {now : Nat} {u : String} (h : s.status ≠ .created) :
    internalSettleSingleStock s stocks pm now u = .error (.notCreated s.id) := by
  unfold internalSettleSingleStock
  simp [h]

theorem internalSettleSingleStock_insufficient {s : Stock} {stocks : List Stock}
    {pm : PercentageMap} {now : Nat} {u : String} (h1 : s.status = .created)
    (h2 : s.stockEvent = .stock_out) (h3 : settleUpdate s stocks < 0) :
    internalSettleSingleStock s stocks pm now u
      = .error (.insufficientStock s.metricId s.id) := by
  unfold internalSettleSingleStock
  simp [h1, h2, h3]

theorem settledResult_status (s : Stock) (stocks : List Stock) (pm : PercentageMap)
    (now : Nat) (u : String) : (settledResult s stocks pm now u).status = .settled := rfl

theorem settledResult_initialAmount (s : Stock) (stocks : List Stock) (pm : PercentageMap)
    (now : Nat) (u : String) :
    (settledResult s stocks pm now u).initialAmount = some (settleInitial s stocks) := rfl

theorem settledResult_updateAmount (s : Stock) (stocks : List Stock) (pm : PercentageMap)
    (now : Nat) (u : String) :
    (settledResult s stocks pm now u).updateAmount = some (settleUpdate s stocks) := rfl

theorem settledResult_updatedAt (s : Stock) (stocks : List Stock) (pm : PercentageMap)
    (now : Nat) (u : String) : (settledResult s stocks pm now u).updatedAt = now := rfl

theorem settledResult_id (s : Stock) (stocks : List Stock) (pm : PercentageMap)
    (now : Nat) (u : String) : (settledResult s stocks pm now u).id = s.id := rfl

theorem settledResult_metricId (s : Stock) (stocks : List Stock) (pm : PercentageMap)
    (now : Nat) (u : String) : (settledResult s stocks pm now u).metricId = s.metricId := rfl

theorem settledResult_stockEvent (s : Stock) (stocks : List Stock) (pm : PercentageMap)
    (now : Nat) (u : String) : (settledResult s stocks pm now u).stockEvent = s.stockEvent := rfl

/-! ### Generic list utilities -/

theorem find?_map_eq {α : Type} (f : α → α) (p : α → Bool) (l : List α)
    (hf : ∀ x, p (f x) = p x) : (l.map f).find? p = (l.find? p).map f := by
  induction l with
  | nil => rfl
  | cons a l ih =>
    by_cases hpa : p a = true
    · rw [List.map_cons, List.find?_cons_of_pos l hpa,
          List.find?_cons_of_pos (l.map f) (by rw [hf a]; exact hpa)]
      rfl
    · rw [List.map_cons, List.find?_cons_of_neg l (by simpa using hpa),
          List.find?_cons_of_neg (l.map f)
            (by rw [hf a]; simpa using hpa), ih]

theorem find?_append_of_none {α : Type} (p : α → Bool) (l1 l2 : List α)
    (h : ∀ x ∈ l1, ¬ p x = true) : (l1 ++ l2).find? p = l2.find? p := by
  induction l1 with
  | nil => rfl
  | cons a l ih =>
    rw [List.cons_append,
        List.find?_cons_of_neg _ (h a (List.mem_cons_self a l)), ih]
    exact fun x hx => h x (List.mem_cons_of_mem a hx)

/-! ### Inversions and transport lemmas for the controllers -/

theorem mem_replaceStock {l : List Stock} {s r : Stock} (h : r ∈ replaceStock l s) :
    r = s ∨ r ∈ l := by
  unfold replaceStock at h
  obtain ⟨t, ht, hrt⟩ := List.mem_map.mp h
  by_cases hid : (t.id == s.id) = true
  · rw [if_pos hid] at hrt; exact Or.inl hrt.symm
  · rw [if_neg hid] at hrt; exact Or.inr (hrt ▸ ht)

theorem replaceStock_mem_self {l : List Stock} {s0 s : Stock} (hmem : s0 ∈ l)
    (hid : s0.id = s.id) : s ∈ replaceStock l s := by
  unfold replaceStock
  refine List.mem_map.mpr ⟨s0, hmem, ?_⟩
  simp [hid]

/-- Settling the next movement of the same metric right after a settlement
(with a fresh clock) chains: its `initialAmount` is the previous
settlement's `updateAmount`. -/
theorem settled_chain_step {stocks : List Stock} {pm : PercentageMap} {c : Nat}
    {u : String} {s1 s2 s1' s2' : Stock}
    (hmem : s1 ∈ stocks) (hfresh : ∀ t ∈ stocks, t.updatedAt < c)
    (hmetric : s2.metricId = s1.metricId)
    (h1 : internalSettleSingleStock s1 stocks pm c u = .ok s1')
    (h2 : internalSettleSingleStock s2 (replaceStock stocks s1') pm (c + 1) u = .ok s2') :
    s2'.initialAmount = s1'.updateAmount := by
  obtain ⟨hc1, hno1, hs1⟩ := internalSettleSingleStock_ok_iff.mp h1
  obtain ⟨hc2, hno2, hs2⟩ := internalSettleSingleStock_ok_iff.mp h2
  have hs1id : s1'.id = s1.id := by rw [hs1]; rfl
  have hs1st : s1'.status = .settled := by rw [hs1]; rfl
  have hs1met : s1'.metricId = s1.metricId := by rw [hs1]; rfl
  have hs1upd : s1'.updatedAt = c := by rw [hs1]; rfl
  have hs1ua : s1'.updateAmount = some (settleUpdate s1 stocks) := by rw [hs1]; rfl
  have hmem2 : s1' ∈ replaceStock stocks s1' := replaceStock_mem_self hmem hs1id.symm
  have hfind : findLastSettled s2.metricId (replaceStock stocks s1') = some s1' := by
    apply findLastSettled_eq_of_fresh hmem2
    · exact ⟨by rw [hs1met, hmetric], hs1st⟩
    · intro t ht hq
      rcases mem_replaceStock ht with h | h
      · exact Or.inl h
      · exact Or.inr (by rw [hs1upd]; exact hfresh t h)
  rw [hs2, settledResult_initialAmount]
  unfold settleInitial
  rw [hfind]
  show some (s1'.updateAmount.getD 0) = s1'.updateAmount
  rw [hs1ua]
  rfl

theorem settleStockBatch_failed_inv {batchId : Nat} {db : DB} {u : String} {db1 : DB}
    {e : SettleErr} (h : settleStockBatch batchId db u = .failed db1 e) :
    ∃ batch, findBatch batchId db.batches = some batch ∧
      batch.status = BatchStatus.completed ∧
      settleList u (createdStocksOf batchId db) db = .error e ∧
      db1 = { db with batches := markBatchFailedUnlessSettled db.batches batchId
                        (settleErrMsg e) } := by
  unfold settleStockBatch at h
  cases hfb : findBatch batchId db.batches with
  | none => simp only [hfb] at h; cases h
  | some batch =>
    simp only [hfb] at h
    by_cases hst : batch.status ≠ BatchStatus.completed
    · rw [if_pos hst] at h; simp at h
    · rw [if_neg hst] at h
      push_neg at hst
      by_cases hemp : (createdStocksOf batchId db).isEmpty
      · rw [if_pos hemp] at h; simp at h
      · rw [if_neg hemp] at h
        cases hsl : settleList u (createdStocksOf batchId db) db with
        | ok db2 => simp only [hsl] at h; cases h
        | error e2 =>
          simp only [hsl] at h
          injection h with h1 h2
          subst h2
          exact ⟨batch, rfl, hst, rfl, h1.symm⟩

theorem findBatch_markFailed {batches : List StockBatch} {batchId : Nat} {msg : String}
    {b : StockBatch} (hfb : findBatch batchId batches = some b)
    (hb : b.status ≠ BatchStatus.settled) :
    findBatch batchId (markBatchFailedUnlessSettled batches batchId msg)
      = some { b with status := .failed, errorMessage := some msg } := by
  unfold findBatch markBatchFailedUnlessSettled
  rw [find?_map_eq]
  · unfold findBatch at hfb
    rw [hfb]
    have hid : b.id = batchId := by
      have := List.find?_some hfb
      simpa using this
    simp only [Option.map_some']
    rw [if_pos ⟨hid, hb⟩]
  · intro x
    by_cases hx : x.id = batchId ∧ x.status ≠ BatchStatus.settled
    · rw [if_pos hx]
    · rw [if_neg hx]

theorem settlingStock_settled_inv {id metricId : Nat} {db : DB} {u : String}
    {db1 : DB} {s1 : Stock}
    (h : settlingStock id metricId db u = .settled db1 s1) :
    ∃ st lp,
      db.stocks.find? (fun t => t.id == id && t.status == StockStatus.created) = some st ∧
      ¬ settlingUpdate st metricId db.stocks < 0 ∧
      latestPriceFor metricId db.prices = some lp ∧
      s1 = settlingSettledStock st metricId db.stocks lp db.percentages db.clock ∧
      db1 = { db with stocks := replaceStock db.stocks s1, clock := db.clock + 1 } := by
  unfold settlingStock at h
  cases hf : db.stocks.find? (fun t => t.id == id && t.status == StockStatus.created) with
  | none => simp only [hf] at h; cases h
  | some st =>
    simp only [hf] at h
    by_cases hneg : settlingUpdate st metricId db.stocks < 0
    · rw [if_pos hneg] at h; simp at h
    · rw [if_neg hneg] at h
      cases hlp : latestPriceFor metricId db.prices with
      | none => simp only [hlp] at h; cases h
      | some lp =>
        simp only [hlp] at h
        injection h with h1 h2
        subst h2
        exact ⟨st, lp, rfl, hneg, rfl, rfl, h1.symm⟩

theorem settlingStock_notFound {id m : Nat} {db : DB} {u : String}
    (h : ∀ t ∈ db.stocks, t.id = id → t.status ≠ .created) :
    settlingStock id m db u = .notFound db := by
  unfold settlingStock
  rw [List.find?_eq_none.mpr]
  intro t ht
  by_cases hid : t.id = id
  · simp [hid, h t ht hid]
  · simp [hid]

theorem createAllStocks_length (prices : List Price) (u : String) (batchId now : Nat) :
    ∀ (items : List ItemData) (firstId : Nat) (l : List Stock),
      createAllStocks items prices u batchId firstId now = .ok l →
      l.length = items.length := by
  intro items
  induction items with
  | nil =>
    intro f l h
    unfold createAllStocks at h
    injection h with h1
    subst h1; rfl
  | cons it rest ih =>
    intro f l h
    unfold createAllStocks at h
    cases hic : internalCreateSingleStock it prices u batchId f now with
    | error e => simp only [hic] at h; cases h
    | ok s =>
      simp only [hic] at h
      cases hca : createAllStocks rest prices u batchId (f + 1) now with
      | error e => simp only [hca] at h; cases h
      | ok l2 =>
        simp only [hca] at h
        injection h with h1
        subst h1
        simp [ih (f + 1) l2 hca]

theorem createAllStocks_isOk (prices : List Price) (u : String) (batchId now : Nat) :
    ∀ (items : List ItemData) (firstId : Nat),
      (∀ it ∈ items, (latestPriceFor it.metricId prices).isSome) →
      ∃ l, createAllStocks items prices u batchId firstId now = .ok l := by
  intro items
  induction items with
  | nil => intro f _; exact ⟨[], rfl⟩
  | cons it rest ih =>
    intro f h
    cases hlp : latestPriceFor it.metricId prices with
    | none =>
      have := h it (List.mem_cons_self it rest)
      rw [hlp] at this; simp at this
    | some lp =>
      obtain ⟨l, hl⟩ := ih (f + 1) (fun x hx => h x (List.mem_cons_of_mem it hx))
      unfold createAllStocks
      simp only [internalCreateSingleStock, hlp, hl]
      exact ⟨_, rfl⟩

theorem createAllStocks_error_of_missing (prices : List Price) (u : String)
    (batchId now : Nat) :
    ∀ (items : List ItemData) (firstId : Nat) (it : ItemData), it ∈ items →
      latestPriceFor it.metricId prices = none →
      ∃ e, createAllStocks items prices u batchId firstId now = .error e := by
  intro items
  induction items with
  | nil => intro f it hmem; simp at hmem
  | cons a rest ih =>
    intro f it hmem hnone
    cases hlp : latestPriceFor a.metricId prices with
    | none =>
      refine ⟨.noPriceAvailable a.metricId, ?_⟩
      unfold createAllStocks
      simp only [internalCreateSingleStock, hlp]
    | some lp =>
      have hmem2 : it ∈ rest := by
        rcases List.mem_cons.mp hmem with h1 | h1
        · subst h1; rw [hnone] at hlp; cases hlp
        · exact h1
      obtain ⟨e, he⟩ := ih (f + 1) it hmem2 hnone
      refine ⟨e, ?_⟩
      unfold createAllStocks
      simp only [internalCreateSingleStock, hlp, he]

/-! ### Commission branch lemmas -/

theorem internalSettleBase_sales {tnp : Rat} {salesId subAgentId agentId : Option Nat}
    {pm : PercentageMap} (h : salesId.isSome) :
    internalSettleBase tnp salesId subAgentId agentId pm =
      { distributorPercentage := 100 - pmGet pm.supplier - pmGet pm.shop - pmGet pm.salesman
        totalDistributorShare :=
          tnp * (100 - pmGet pm.supplier - pmGet pm.shop - pmGet pm.salesman) / 100
        totalSalesShare := some (tnp * pmGet pm.salesman / 100)
        totalSubAgentShare := none
        totalAgentShare := none
        totalShopShare := none } := by
  unfold internalSettleBase
  rw [if_pos h]

theorem internalSettleBase_subAgent {tnp : Rat} {salesId subAgentId agentId : Option Nat}
    {pm : PercentageMap} (h1 : salesId = none) (h2 : subAgentId.isSome) :
    internalSettleBase tnp salesId subAgentId agentId pm =
      { distributorPercentage := 100 - pmGet pm.supplier - pmGet pm.shop - pmGet pm.subAgent
        totalDistributorShare :=
          tnp * (100 - pmGet pm.supplier - pmGet pm.shop - pmGet pm.subAgent) / 100
        totalSalesShare := none
        totalSubAgentShare := some (tnp * pmGet pm.subAgent / 100)
        totalAgentShare := none
        totalShopShare := none } := by
  unfold internalSettleBase
  rw [if_neg (by simp [h1]), if_pos h2]

theorem internalSettleBase_agent {tnp : Rat} {salesId subAgentId agentId : Option Nat}
    {pm : PercentageMap} (h1 : salesId = none) (h2 : subAgentId = none)
    (h3 : agentId.isSome) :
    internalSettleBase tnp salesId subAgentId agentId pm =
      { distributorPercentage := 100 - pmGet pm.supplier - pmGet pm.agent
        totalDistributorShare := tnp * (100 - pmGet pm.supplier - pmGet pm.agent) / 100
        totalSalesShare := none
        totalSubAgentShare := none
        totalAgentShare := some (tnp * pmGet pm.agent / 100)
        totalShopShare := none } := by
  unfold internalSettleBase
  rw [if_neg (by simp [h1]), if_neg (by simp [h2]), if_pos h3]

theorem internalSettleBase_shopShare (tnp : Rat) (salesId subAgentId agentId : Option Nat)
    (pm : PercentageMap) :
    (internalSettleBase tnp salesId subAgentId agentId pm).totalShopShare = none := by
  unfold internalSettleBase
  by_cases h1 : salesId.isSome
  · rw [if_pos h1]
  · rw [if_neg h1]
    by_cases h2 : subAgentId.isSome
    · rw [if_pos h2]
    · rw [if_neg h2]
      by_cases h3 : agentId.isSome
      · rw [if_pos h3]
      · rw [if_neg h3]

/-- Projections of the shop-override that do not touch `totalShopShare`. -/
theorem internalSettleCommission_nonShop (tnp : Rat) (salesId subAgentId agentId : Option Nat)
    (ev : StockEvent) (pm : PercentageMap) :
    (internalSettleCommission tnp salesId subAgentId agentId ev pm).totalDistributorShare
      = (internalSettleBase tnp salesId subAgentId agentId pm).totalDistributorShare ∧
    (internalSettleCommission tnp salesId subAgentId agentId ev pm).totalSalesShare
      = (internalSettleBase tnp salesId subAgentId agentId pm).totalSalesShare ∧
    (internalSettleCommission tnp salesId subAgentId agentId ev pm).totalSubAgentShare
      = (internalSettleBase tnp salesId subAgentId agentId pm).totalSubAgentShare ∧
    (internalSettleCommission tnp salesId subAgentId agentId ev pm).totalAgentShare
      = (internalSettleBase tnp salesId subAgentId agentId pm).totalAgentShare := by
  unfold internalSettleCommission
  by_cases h : ev = StockEvent.stock_out ∧ sellerPresent salesId subAgentId agentId
  · rw [if_pos h]; exact ⟨rfl, rfl, rfl, rfl⟩
  · rw [if_neg h]; exact ⟨rfl, rfl, rfl, rfl⟩

theorem internalSettleCommission_shop (tnp : Rat) (salesId subAgentId agentId : Option Nat)
    (ev : StockEvent) (pm : PercentageMap) :
    (internalSettleCommission tnp salesId subAgentId agentId ev pm).totalShopShare
      = if ev = StockEvent.stock_out ∧ sellerPresent salesId subAgentId agentId
        then some (tnp * pmGet pm.shop / 100) else none := by
  unfold internalSettleCommission
  by_cases h : ev = StockEvent.stock_out ∧ sellerPresent salesId subAgentId agentId
  · rw [if_pos h, if_pos h]
  · rw [if_neg h, if_neg h]
    exact internalSettleBase_shopShare tnp salesId subAgentId agentId pm

theorem settlingStockBase_sales {tnp : Rat} {salesId subAgentId agentId : Option Nat}
    {pm : PercentageMap} (h : salesId.isSome) :
    settlingStockBase tnp salesId subAgentId agentId pm =
      { distributorPercentage := 100 - pmGet pm.supplier - pmGet pm.shop - pmGet pm.salesman
        totalDistributorShare :=
          tnp * (100 - pmGet pm.supplier - pmGet pm.shop - pmGet pm.salesman) / 100
        totalSalesShare := some (tnp * (pmGet pm.salesman / 100))
        totalSubAgentShare := none
        totalAgentShare := none
        totalShopShare := none } := by
  unfold settlingStockBase
  rw [if_pos h]

theorem settlingStockBase_subAgent {tnp : Rat} {salesId subAgentId agentId : Option Nat}
    {pm : PercentageMap} (h1 : salesId = none) (h2 : subAgentId.isSome) :
    settlingStockBase tnp salesId subAgentId agentId pm =
      { distributorPercentage := 100 - pmGet pm.supplier - pmGet pm.shop - pmGet pm.subAgent
        totalDistributorShare :=
          tnp * (100 - pmGet pm.supplier - pmGet pm.shop - pmGet pm.subAgent) / 100
        totalSalesShare := none
        totalSubAgentShare := some (tnp * (pmGet pm.subAgent / 100))
        totalAgentShare := none
        totalShopShare := none } := by
  unfold settlingStockBase
  rw [if_neg (by simp [h1]), if_pos h2]

theorem settlingStockBase_agent {tnp : Rat} {salesId subAgentId agentId : Option Nat}
    {pm : PercentageMap} (h1 : salesId = none) (h2 : subAgentId = none)
    (h3 : agentId.isSome) :
    settlingStockBase tnp salesId subAgentId agentId pm =
      { distributorPercentage := 100 - pmGet pm.supplier - pmGet pm.agent
        totalDistributorShare := tnp * (100 - pmGet pm.supplier - pmGet pm.agent) / 100
        totalSalesShare := none
        totalSubAgentShare := none
        totalAgentShare := some (tnp * (pmGet pm.agent / 100))
        totalShopShare := none } := by
  unfold settlingStockBase
  rw [if_neg (by simp [h1]), if_neg (by simp [h2]), if_pos h3]

theorem internalSettleBase_none {tnp : Rat} {salesId subAgentId agentId : Option Nat}
    {pm : PercentageMap} (h1 : salesId = none) (h2 : subAgentId = none)
    (h3 : agentId = none) :
    internalSettleBase tnp salesId subAgentId agentId pm =
      { distributorPercentage := 0
        totalDistributorShare := 0
        totalSalesShare := none
        totalSubAgentShare := none
        totalAgentShare := none
        totalShopShare := none } := by
  unfold internalSettleBase
  rw [if_neg (by simp [h1]), if_neg (by simp [h2]), if_neg (by simp [h3])]

theorem settlingStockBase_none {tnp : Rat} {salesId subAgentId agentId : Option Nat}
    {pm : PercentageMap} (h1 : salesId = none) (h2 : subAgentId = none)
    (h3 : agentId = none) :
    settlingStockBase tnp salesId subAgentId agentId pm =
      { distributorPercentage := 0
        totalDistributorShare := 0
        totalSalesShare := none
        totalSubAgentShare := none
        totalAgentShare := none
        totalShopShare := none } := by
  unfold settlingStockBase
  rw [if_neg (by simp [h1]), if_neg (by simp [h2]), if_neg (by simp [h3])]

theorem settlingStockCommission_shop (tnp : Rat) (salesId subAgentId agentId : Option Nat)
    (ev : StockEvent) (pm : PercentageMap) :
    (settlingStockCommission tnp salesId subAgentId agentId ev pm).totalShopShare
      = if ev = StockEvent.stock_out then some (tnp * (pmGet pm.shop / 100)) else none := by
  unfold settlingStockCommission
  by_cases h : ev = StockEvent.stock_out
  · rw [if_pos h, if_pos h]
  · rw [if_neg h, if_neg h]
    unfold settlingStockBase
    by_cases h1 : salesId.isSome
    · rw [if_pos h1]
    · rw [if_neg h1]
      by_cases h2 : subAgentId.isSome
      · rw [if_pos h2]
      · rw [if_neg h2]
        by_cases h3 : agentId.isSome
        · rw [if_pos h3]
        · rw [if_neg h3]

theorem settlingStockCommission_nonShop (tnp : Rat) (salesId subAgentId agentId : Option Nat)
    (ev : StockEvent) (pm : PercentageMap) :
    (settlingStockCommission tnp salesId subAgentId agentId ev pm).totalDistributorShare
      = (settlingStockBase tnp salesId subAgentId agentId pm).totalDistributorShare ∧
    (settlingStockCommission tnp salesId subAgentId agentId ev pm).totalSalesShare
      = (settlingStockBase tnp salesId subAgentId agentId pm).totalSalesShare ∧
    (settlingStockCommission tnp salesId subAgentId agentId ev pm).totalSubAgentShare
      = (settlingStockBase tnp salesId subAgentId agentId pm).totalSubAgentShare ∧
    (settlingStockCommission tnp salesId subAgentId agentId ev pm).totalAgentShare
      = (settlingStockBase tnp salesId subAgentId agentId pm).totalAgentShare := by
  unfold settlingStockCommission
  by_cases h : ev = StockEvent.stock_out
  · rw [if_pos h]; exact ⟨rfl, rfl, rfl, rfl⟩
  · rw [if_neg h]; exact ⟨rfl, rfl, rfl, rfl⟩

/-! ### Field projections of the settled rows -/

theorem settledResult_distributor (s : Stock) (stocks : List Stock) (pm : PercentageMap)
    (now : Nat) (u : String) :
    (settledResult s stocks pm now u).totalDistributorShare
      = (internalSettleCommission s.totalNetPrice s.salesId s.subAgentId s.agentId
          s.stockEvent pm).totalDistributorShare := rfl

theorem settledResult_sales (s : Stock) (stocks : List Stock) (pm : PercentageMap)
    (now : Nat) (u : String) :
    (settledResult s stocks pm now u).totalSalesShare
      = (internalSettleCommission s.totalNetPrice s.salesId s.subAgentId s.agentId
          s.stockEvent pm).totalSalesShare := rfl

theorem settledResult_subAgent (s : Stock) (stocks : List Stock) (pm : PercentageMap)
    (now : Nat) (u : String) :
    (settledResult s stocks pm now u).totalSubAgentShare
      = (internalSettleCommission s.totalNetPrice s.salesId s.subAgentId s.agentId
          s.stockEvent pm).totalSubAgentShare := rfl

theorem settledResult_agent (s : Stock) (stocks : List Stock) (pm : PercentageMap)
    (now : Nat) (u : String) :
    (settledResult s stocks pm now u).totalAgentShare
      = (internalSettleCommission s.totalNetPrice s.salesId s.subAgentId s.agentId
          s.stockEvent pm).totalAgentShare := rfl

theorem settledResult_shop (s : Stock) (stocks : List Stock) (pm : PercentageMap)
    (now : Nat) (u : String) :
    (settledResult s stocks pm now u).totalShopShare
      = (internalSettleCommission s.totalNetPrice s.salesId s.subAgentId s.agentId
          s.stockEvent pm).totalShopShare := rfl

theorem settlingSettledStock_fields (st : Stock) (metricId : Nat) (stocks : List Stock)
    (lp : Price) (pm : PercentageMap) (now : Nat) :
    (settlingSettledStock st metricId stocks lp pm now).status = .settled ∧
    (settlingSettledStock st metricId stocks lp pm now).initialAmount
      = some (settlingInitial metricId stocks) ∧
    (settlingSettledStock st metricId stocks lp pm now).updateAmount
      = some (settlingUpdate st metricId stocks) ∧
    (settlingSettledStock st metricId stocks lp pm now).stockEvent = st.stockEvent ∧
    (settlingSettledStock st metricId stocks lp pm now).totalDistributorShare
      = (settlingStockCommission (settlingNetPrice st lp pm) st.salesId st.subAgentId
          st.agentId st.stockEvent pm).totalDistributorShare ∧
    (settlingSettledStock st metricId stocks lp pm now).totalSalesShare
      = (settlingStockCommission (settlingNetPrice st lp pm) st.salesId st.subAgentId
          st.agentId st.stockEvent pm).totalSalesShare ∧
    (settlingSettledStock st metricId stocks lp pm now).totalSubAgentShare
      = (settlingStockCommission (settlingNetPrice st lp pm) st.salesId st.subAgentId
          st.agentId st.stockEvent pm).totalSubAgentShare ∧
    (settlingSettledStock st metricId stocks lp pm now).totalAgentShare
      = (settlingStockCommission (settlingNetPrice st lp pm) st.salesId st.subAgentId
          st.agentId st.stockEvent pm).totalAgentShare ∧
    (settlingSettledStock st metricId stocks lp pm now).totalShopShare
      = (settlingStockCommission (settlingNetPrice st lp pm) st.salesId st.subAgentId
          st.agentId st.stockEvent pm).totalShopShare :=
  ⟨rfl, rfl, rfl, rfl, rfl, rfl, rfl, rfl, rfl⟩

/-! ### Claim theorems -/

/-- C1: For every settlement of a `created` movement via the batch path
(`_internalSettleSingleStock`), the stored `initialAmount` equals the
`updateAmount` of the metric's most recently settled movement — one that no
other settled movement of the metric beats by latest update timestamp, then
by identifier, descending — or `0` when no settled movement of the metric
exists; the stored `updateAmount` equals `initialAmount + amount` for
`stock_in` and `initialAmount - amount` for `stock_out`; and consecutive
settlements on the same metric chain into a running balance: the second
movement's `initialAmount` equals the first's freshly stored
`updateAmount`. -/
theorem C1_batch_settlement_running_balance :
    (∀ (s : Stock) (stocks : List Stock) (pm : PercentageMap) (now : Nat) (u : String)
       (s1 : Stock), internalSettleSingleStock s stocks pm now u = .ok s1 →
       ((∀ r ∈ stocks, ¬ qualSettled s.metricId r) ∧ s1.initialAmount = some 0) ∨
       (∃ t ∈ stocks, qualSettled s.metricId t ∧
         (∀ r ∈ stocks, qualSettled s.metricId r → ¬ settledLater r t) ∧
         s1.initialAmount = some (t.updateAmount.getD 0))) ∧
    (∀ (s : Stock) (stocks : List Stock) (pm : PercentageMap) (now : Nat) (u : String)
       (s1 : Stock), internalSettleSingleStock s stocks pm now u = .ok s1 →
       ∃ i, s1.initialAmount = some i ∧
         s1.updateAmount = some (if s.stockEvent = .stock_in then i + s.amount
                                 else i - s.amount)) ∧
    (∀ (stocks : List Stock) (pm : PercentageMap) (c : Nat) (u : String)
       (s1 s2 s1' s2' : Stock), s1 ∈ stocks → (∀ t ∈ stocks, t.updatedAt < c) →
       s2.metricId = s1.metricId →
       internalSettleSingleStock s1 stocks pm c u = .ok s1' →
       internalSettleSingleStock s2 (replaceStock stocks s1') pm (c + 1) u = .ok s2' →
       s2'.initialAmount = s1'.updateAmount) := by
  refine ⟨?_, ?_, ?_⟩
  · intro s stocks pm now u s1 h
    obtain ⟨_, _, hs1⟩ := internalSettleSingleStock_ok_iff.mp h
    subst hs1
    rw [settledResult_initialAmount]
    unfold settleInitial
    cases hf : findLastSettled s.metricId stocks with
    | none =>
      exact Or.inl ⟨(findLastSettled_eq_none_iff s.metricId stocks).mp hf, rfl⟩
    | some t =>
      obtain ⟨hmem, hq, hmax⟩ := findLastSettled_spec hf
      exact Or.inr ⟨t, hmem, hq, hmax, rfl⟩
  · intro s stocks pm now u s1 h
    obtain ⟨_, _, hs1⟩ := internalSettleSingleStock_ok_iff.mp h
    subst hs1
    exact ⟨settleInitial s stocks, rfl, rfl⟩
  · intro stocks pm c u s1 s2 s1' s2' hmem hfresh hmet h1 h2
    exact settled_chain_step hmem hfresh hmet h1 h2

/-- Witness for C1: settling `exC1A` then `exC1B` (both metric 1) chains,
the second initial amount being the first update amount. -/
theorem C1_batch_settlement_running_balance_witness :
    exC1BRes.initialAmount = exC1ARes.updateAmount :=
  C1_batch_settlement_running_balance.2.2 exC1Stocks exPM 5 "u" exC1A exC1B exC1ARes exC1BRes
    (show exC1A ∈ [exC1A, exC1B] from List.mem_cons_self _ _)
    (by decide)
    rfl
    (internalSettleSingleStock_ok_iff.mpr ⟨rfl, fun hc => absurd hc.1 (by decide), rfl⟩)
    (internalSettleSingleStock_ok_iff.mpr ⟨rfl, fun hc => absurd hc.1 (by decide), rfl⟩)

/-- C2: A settlement of a `created` `stock_out` movement whose update would
go negative fails with the insufficient-stock error; a successfully settled
`stock_out` movement always stores a non-negative `updateAmount`; and when
batch settlement fails, the whole transaction rolls back — the stocks table
is unchanged (every movement keeps its status and financial fields) — and
the batch is marked `failed` with the error message captured. -/
theorem C2_insufficient_stock_rollback :
    (∀ (s : Stock) (stocks : List Stock) (pm : PercentageMap) (now : Nat) (u : String),
       s.status = .created → s.stockEvent = .stock_out → settleUpdate s stocks < 0 →
       internalSettleSingleStock s stocks pm now u
         = .error (.insufficientStock s.metricId s.id)) ∧
    (∀ (s : Stock) (stocks : List Stock) (pm : PercentageMap) (now : Nat) (u : String)
       (s1 : Stock), internalSettleSingleStock s stocks pm now u = .ok s1 →
       s.stockEvent = .stock_out → ∃ v, s1.updateAmount = some v ∧ 0 ≤ v) ∧
    (∀ (batchId : Nat) (db : DB) (u : String) (db1 : DB) (e : SettleErr),
       settleStockBatch batchId db u = .failed db1 e →
       db1.stocks = db.stocks ∧
       ∃ b, findBatch batchId db1.batches = some b ∧ b.status = .failed ∧
         b.errorMessage = some (settleErrMsg e)) := by
  refine ⟨?_, ?_, ?_⟩
  · intro s stocks pm now u h1 h2 h3
    exact internalSettleSingleStock_insufficient h1 h2 h3
  · intro s stocks pm now u s1 h hout
    obtain ⟨_, hno, hs1⟩ := internalSettleSingleStock_ok_iff.mp h
    subst hs1
    refine ⟨settleUpdate s stocks, rfl, ?_⟩
    by_contra hneg
    push_neg at hneg
    exact hno ⟨hout, hneg⟩
  · intro batchId db u db1 e h
    obtain ⟨batch, hfb, hst, hsl, hdb1⟩ := settleStockBatch_failed_inv h
    subst hdb1
    refine ⟨rfl, ?_⟩
    exact ⟨{ batch with status := .failed, errorMessage := some (settleErrMsg e) },
      findBatch_markFailed hfb (by rw [hst]; decide), rfl, rfl⟩

/-- The concrete failed settlement: batch 0 of `exC2DB` holds one `created`
`stock_out` of 5 against an empty running balance, so the batch settlement
fails with the insufficient-stock error, rolls back, and marks the batch. -/
theorem exC2_settle_failed :
    settleStockBatch 0 exC2DB "u" = .failed exC2FailedDB (.insufficientStock 1 1) := by
  have hins : internalSettleSingleStock exOut5 exC2DB.stocks exC2DB.percentages
      exC2DB.clock "u" = .error (.insufficientStock 1 1) := by
    have h3 : settleUpdate exOut5 exC2DB.stocks < 0 := by
      show (0 : Rat) - 5 < 0
      norm_num
    exact internalSettleSingleStock_insufficient rfl rfl h3
  unfold settleStockBatch
  simp only [show findBatch 0 exC2DB.batches = some exBatch from rfl]
  rw [if_neg (by decide)]
  rw [if_neg (by decide)]
  rw [show createdStocksOf 0 exC2DB = [exOut5] from rfl]
  simp only [settleList, hins]
  rfl

/-- Witness for C2: the concrete failed batch settlement leaves the stocks
table unchanged and marks batch 0 `failed`, and the insufficiency error is
produced at a concrete movement. -/
theorem C2_insufficient_stock_rollback_witness :
    internalSettleSingleStock exOut5 exC2DB.stocks exPM 3 "u"
        = .error (.insufficientStock 1 1) ∧
    exC2FailedDB.stocks = exC2DB.stocks ∧
    (∃ b, findBatch 0 exC2FailedDB.batches = some b ∧ b.status = .failed ∧
      b.errorMessage = some (settleErrMsg (.insufficientStock 1 1))) := by
  refine ⟨?_, ?_⟩
  · exact C2_insufficient_stock_rollback.1 exOut5 exC2DB.stocks exPM 3 "u" rfl rfl
      (by show (0 : Rat) - 5 < 0; norm_num)
  · exact C2_insufficient_stock_rollback.2.2 0 exC2DB "u" exC2FailedDB
      (.insufficientStock 1 1) exC2_settle_failed

/-- C3 (counterexample): the claim's formula — for an agent-referenced
movement the seller-tier percentage is omitted, i.e. distributor% =
100 − supplier% − shop% — is false on the code: with supplier 50, shop 20,
agent 15 and `totalNetPrice` 100, the settled movement stores a distributor
share of 35 (the code omits the *shop* percentage, not the agent's), while
the claim's formula yields 100 × (100 − 50 − 20) / 100 = 30. -/
theorem C3_distributor_share_counterexample :
    internalSettleSingleStock exC3Stock [] exPM 1 "u"
        = .ok (settledResult exC3Stock [] exPM 1 "u") ∧
    (settledResult exC3Stock [] exPM 1 "u").totalDistributorShare = 35 ∧
    ¬ (settledResult exC3Stock [] exPM 1 "u").totalDistributorShare
        = exC3Stock.totalNetPrice * (100 - pmGet exPM.supplier - pmGet exPM.shop) / 100 := by
  have h35 : (settledResult exC3Stock [] exPM 1 "u").totalDistributorShare = 35 := by
    rw [settledResult_distributor,
      (internalSettleCommission_nonShop exC3Stock.totalNetPrice exC3Stock.salesId
        exC3Stock.subAgentId exC3Stock.agentId exC3Stock.stockEvent exPM).1,
      @internalSettleBase_agent exC3Stock.totalNetPrice exC3Stock.salesId
        exC3Stock.subAgentId exC3Stock.agentId exPM rfl rfl rfl]
    show (100 : Rat) * (100 - pmGet exPM.supplier - pmGet exPM.agent) / 100 = 35
    norm_num [exPM, pmGet]
  refine ⟨?_, h35, ?_⟩
  · exact internalSettleSingleStock_ok_iff.mpr ⟨rfl, fun hc => absurd hc.1 (by decide), rfl⟩
  · rw [h35]
    show ¬ (35 : Rat) = 100 * (100 - pmGet exPM.supplier - pmGet exPM.shop) / 100
    norm_num [exPM, pmGet]

/-- C3 (amended): for every movement settled by `_internalSettleSingleStock`
and carrying a seller reference, the distributor share percentage is
100 − supplier% − shop% − sellerTier% for a salesman or sub-agent, while for
an agent the *shop%* (not the seller-tier%) is omitted: distributor% =
100 − supplier% − agent%; the distributor amount is totalNetPrice × that
percentage / 100, and the seller-tier share totalNetPrice × tier% / 100 is
stored in exactly the matching tier field, the other tier fields staying
null. -/
theorem C3_distributor_share_amended :
    ∀ (s : Stock) (stocks : List Stock) (pm : PercentageMap) (now : Nat) (u : String)
      (s1 : Stock), internalSettleSingleStock s stocks pm now u = .ok s1 →
      (s.salesId.isSome →
        s1.totalDistributorShare
          = s.totalNetPrice * (100 - pmGet pm.supplier - pmGet pm.shop - pmGet pm.salesman)
              / 100 ∧
        s1.totalSalesShare = some (s.totalNetPrice * pmGet pm.salesman / 100) ∧
        s1.totalSubAgentShare = none ∧ s1.totalAgentShare = none) ∧
      (s.salesId = none → s.subAgentId.isSome →
        s1.totalDistributorShare
          = s.totalNetPrice * (100 - pmGet pm.supplier - pmGet pm.shop - pmGet pm.subAgent)
              / 100 ∧
        s1.totalSubAgentShare = some (s.totalNetPrice * pmGet pm.subAgent / 100) ∧
        s1.totalSalesShare = none ∧ s1.totalAgentShare = none) ∧
      (s.salesId = none → s.subAgentId = none → s.agentId.isSome →
        s1.totalDistributorShare
          = s.totalNetPrice * (100 - pmGet pm.supplier - pmGet pm.agent) / 100 ∧
        s1.totalAgentShare = some (s.totalNetPrice * pmGet pm.agent / 100) ∧
        s1.totalSalesShare = none ∧ s1.totalSubAgentShare = none) := by
  intro s stocks pm now u s1 h
  obtain ⟨_, _, hs1⟩ := internalSettleSingleStock_ok_iff.mp h
  subst hs1
  obtain ⟨hd, hsa, hsub, hag⟩ := internalSettleCommission_nonShop s.totalNetPrice s.salesId
    s.subAgentId s.agentId s.stockEvent pm
  refine ⟨?_, ?_, ?_⟩
  · intro hsales
    refine ⟨?_, ?_, ?_, ?_⟩
    · rw [settledResult_distributor, hd, internalSettleBase_sales hsales]
    · rw [settledResult_sales, hsa, internalSettleBase_sales hsales]
    · rw [settledResult_subAgent, hsub, internalSettleBase_sales hsales]
    · rw [settledResult_agent, hag, internalSettleBase_sales hsales]
  · intro h1 h2
    refine ⟨?_, ?_, ?_, ?_⟩
    · rw [settledResult_distributor, hd, internalSettleBase_subAgent h1 h2]
    · rw [settledResult_subAgent, hsub, internalSettleBase_subAgent h1 h2]
    · rw [settledResult_sales, hsa, internalSettleBase_subAgent h1 h2]
    · rw [settledResult_agent, hag, internalSettleBase_subAgent h1 h2]
  · intro h1 h2 h3
    refine ⟨?_, ?_, ?_, ?_⟩
    · rw [settledResult_distributor, hd, internalSettleBase_agent h1 h2 h3]
    · rw [settledResult_agent, hag, internalSettleBase_agent h1 h2 h3]
    · rw [settledResult_sales, hsa, internalSettleBase_agent h1 h2 h3]
    · rw [settledResult_subAgent, hsub, internalSettleBase_agent h1 h2 h3]

/-- Witness for C3 (amended), at the concrete agent-referenced movement. -/
theorem C3_distributor_share_amended_witness :
    (settledResult exC3Stock [] exPM 1 "u").totalDistributorShare
      = exC3Stock.totalNetPrice * (100 - pmGet exPM.supplier - pmGet exPM.agent) / 100 ∧
    (settledResult exC3Stock [] exPM 1 "u").totalAgentShare
      = some (exC3Stock.totalNetPrice * pmGet exPM.agent / 100) := by
  have h := (C3_distributor_share_amended exC3Stock [] exPM 1 "u"
      (settledResult exC3Stock [] exPM 1 "u")
      (internalSettleSingleStock_ok_iff.mpr
        ⟨rfl, fun hc => absurd hc.1 (by decide), rfl⟩)).2.2 rfl rfl rfl
  exact ⟨h.1, h.2.1⟩

/-- C4 (counterexample): the claim — a settled `stock_out` movement has
shop share totalNetPrice × shop% / 100 *regardless of which seller kind, if
any, is referenced* — fails on the batch path: a `stock_out` movement with
no seller reference (supplier 50, shop 20, netPrice 100, settled against a
prior balance of 10) stores a null shop share, not 100 × 20 / 100 = 20. -/
theorem C4_shop_share_counterexample :
    internalSettleSingleStock exC4Stock [exC4Prior] exPM 1 "u"
        = .ok (settledResult exC4Stock [exC4Prior] exPM 1 "u") ∧
    exC4Stock.stockEvent = .stock_out ∧
    (settledResult exC4Stock [exC4Prior] exPM 1 "u").totalShopShare = none ∧
    ¬ (settledResult exC4Stock [exC4Prior] exPM 1 "u").totalShopShare
        = some (exC4Stock.totalNetPrice * pmGet exPM.shop / 100) := by
  have hnone : (settledResult exC4Stock [exC4Prior] exPM 1 "u").totalShopShare = none := by
    rw [settledResult_shop, internalSettleCommission_shop, if_neg]
    intro hc
    exact absurd hc.2 (by decide)
  refine ⟨?_, rfl, hnone, ?_⟩
  · refine internalSettleSingleStock_ok_iff.mpr ⟨rfl, ?_, rfl⟩
    intro hc
    have hupd : settleUpdate exC4Stock [exC4Prior] = 10 - 3 := rfl
    rw [hupd] at hc
    have h2 := hc.2
    norm_num at h2
  · rw [hnone]
    simp

/-- C4 (amended): in the batch path (`_internalSettleSingleStock`) the shop
share is totalNetPrice × shop% / 100 exactly when the movement is a
`stock_out` *and* carries a seller reference (salesman, sub-agent, or
agent); it is null for `stock_in` and null for a `stock_out` without a
seller.  In the single-movement path (`settlingStock`) the shop share is
computed for every `stock_out` regardless of seller, on the recomputed
net-price basis, and is null for `stock_in`. -/
theorem C4_shop_share_amended :
    (∀ (s : Stock) (stocks : List Stock) (pm : PercentageMap) (now : Nat) (u : String)
       (s1 : Stock), internalSettleSingleStock s stocks pm now u = .ok s1 →
       (s.stockEvent = .stock_in → s1.totalShopShare = none) ∧
       (s.stockEvent = .stock_out → sellerPresent s.salesId s.subAgentId s.agentId →
         s1.totalShopShare = some (s.totalNetPrice * pmGet pm.shop / 100)) ∧
       (s.stockEvent = .stock_out → ¬ sellerPresent s.salesId s.subAgentId s.agentId →
         s1.totalShopShare = none)) ∧
    (∀ (id m : Nat) (db : DB) (u : String) (db1 : DB) (s1 : Stock) (lp : Price),
       settlingStock id m db u = .settled db1 s1 →
       latestPriceFor m db.prices = some lp →
       (s1.stockEvent = .stock_in → s1.totalShopShare = none) ∧
       (s1.stockEvent = .stock_out →
         s1.totalShopShare
           = some (settlingNetPrice s1 lp db.percentages * (pmGet db.percentages.shop / 100)))) := by
  constructor
  · intro s stocks pm now u s1 h
    obtain ⟨_, _, hs1⟩ := internalSettleSingleStock_ok_iff.mp h
    subst hs1
    refine ⟨?_, ?_, ?_⟩
    · intro hin
      rw [settledResult_shop, internalSettleCommission_shop, if_neg]
      intro hc
      exact absurd (hin.symm.trans hc.1) (by decide)
    · intro hout hseller
      rw [settledResult_shop, internalSettleCommission_shop, if_pos ⟨hout, hseller⟩]
    · intro hout hnos
      rw [settledResult_shop, internalSettleCommission_shop, if_neg]
      intro hc
      exact hnos hc.2
  · intro id m db u db1 s1 lp h hlp
    obtain ⟨st, lp2, hf, hneg, hlp2, hs1, hdb1⟩ := settlingStock_settled_inv h
    rw [hlp] at hlp2
    injection hlp2 with hlpe
    subst hlpe
    subst hs1
    obtain ⟨_, _, _, hev, _, _, _, _, hshop⟩ :=
      settlingSettledStock_fields st m db.stocks lp db.percentages db.clock
    constructor
    · intro hin
      rw [hev] at hin
      rw [hshop, settlingStockCommission_shop, if_neg]
      rw [hin]
      decide
    · intro hout
      rw [hev] at hout
      rw [hshop, settlingStockCommission_shop, if_pos hout]
      rfl

/-- Witness for C4 (amended): a `stock_in` agent movement stores a null shop
share; a `stock_out` salesman movement stores netPrice × 20% = 20; a
`stock_out` without seller stores null; and the single path grants the shop
share to a `stock_out` salesman movement on the recomputed basis. -/
theorem C4_shop_share_amended_witness :
    (settledResult exC3Stock [] exPM 1 "u").totalShopShare = none ∧
    (settledResult exC4Sales [exC4Prior] exPM 1 "u").totalShopShare
      = some (exC4Sales.totalNetPrice * pmGet exPM.shop / 100) ∧
    (settledResult exC4Stock [exC4Prior] exPM 1 "u").totalShopShare = none ∧
    exC5WSingleRes.totalShopShare
      = some (settlingNetPrice exC5WSingleRes exPrice exPM * (pmGet exPM.shop / 100)) := by
  refine ⟨?_, ?_, ?_, ?_⟩
  · exact ((C4_shop_share_amended.1 exC3Stock [] exPM 1 "u"
      (settledResult exC3Stock [] exPM 1 "u")
      (internalSettleSingleStock_ok_iff.mpr
        ⟨rfl, fun hc => absurd hc.1 (by decide), rfl⟩))).1 rfl
  · refine ((C4_shop_share_amended.1 exC4Sales [exC4Prior] exPM 1 "u"
      (settledResult exC4Sales [exC4Prior] exPM 1 "u") ?_)).2.1 rfl (Or.inl rfl)
    refine internalSettleSingleStock_ok_iff.mpr ⟨rfl, ?_, rfl⟩
    intro hc
    have hupd : settleUpdate exC4Sales [exC4Prior] = 10 - 3 := rfl
    rw [hupd] at hc
    have h2 := hc.2
    norm_num at h2
  · refine ((C4_shop_share_amended.1 exC4Stock [exC4Prior] exPM 1 "u"
      (settledResult exC4Stock [exC4Prior] exPM 1 "u") ?_)).2.2 rfl ?_
    · refine internalSettleSingleStock_ok_iff.mpr ⟨rfl, ?_, rfl⟩
      intro hc
      have hupd : settleUpdate exC4Stock [exC4Prior] = 10 - 3 := rfl
      rw [hupd] at hc
      have h2 := hc.2
      norm_num at h2
    · decide
  · refine ((C4_shop_share_amended.2 1 1 exC5WDB "u" exC5WSingleDB exC5WSingleRes exPrice
      ?_ rfl)).2 rfl
    unfold settlingStock
    simp only [show exC5WDB.stocks.find? (fun t => t.id == 1 && t.status == StockStatus.created)
        = some exC5W from rfl]
    rw [if_neg (by show ¬((10 : Rat) - 2 < 0); norm_num)]
    rfl

/-- C5 (counterexample): the two settlement paths do not compute identical
results.  On the same database (one created salesman movement of amount 2,
stored `totalNetPrice` 6, latest price 10, supplier 50%, salesman 10%), the
batch path stores a salesman share of 6 × 10 / 100 = 3/5, while
`settlingStock` recomputes the net-price basis as
(2 × 10) × (100 / 50) = 40 and stores 40 × 10% = 4. -/
theorem C5_path_equivalence_counterexample :
    internalSettleSingleStock exC5Stock exC5DB.stocks exC5DB.percentages exC5DB.clock "u"
        = .ok exC5BatchRes ∧
    settlingStock 1 1 exC5DB "u" = .settled exC5SingleDB exC5SingleRes ∧
    exC5BatchRes.totalSalesShare = some (3 / 5) ∧
    exC5SingleRes.totalSalesShare = some 4 ∧
    exC5BatchRes.totalSalesShare ≠ exC5SingleRes.totalSalesShare := by
  have hb : exC5BatchRes.totalSalesShare = some (3 / 5) := by
    show (settledResult exC5Stock exC5DB.stocks exPM 5 "u").totalSalesShare = some (3 / 5)
    obtain ⟨hd, hsa, hsub, hag⟩ := internalSettleCommission_nonShop exC5Stock.totalNetPrice
      exC5Stock.salesId exC5Stock.subAgentId exC5Stock.agentId exC5Stock.stockEvent exPM
    have hs0 : exC5Stock.salesId.isSome = true := rfl
    rw [settledResult_sales, hsa, internalSettleBase_sales hs0]
    show some ((6 : Rat) * 10 / 100) = some (3 / 5)
    norm_num
  have hs : exC5SingleRes.totalSalesShare = some 4 := by
    show (settlingSettledStock exC5Stock 1 exC5DB.stocks exPrice exPM 5).totalSalesShare
      = some 4
    obtain ⟨_, _, _, _, _, hss, _, _, _⟩ :=
      settlingSettledStock_fields exC5Stock 1 exC5DB.stocks exPrice exPM 5
    obtain ⟨_, hsa2, _, _⟩ := settlingStockCommission_nonShop
      (settlingNetPrice exC5Stock exPrice exPM) exC5Stock.salesId exC5Stock.subAgentId
      exC5Stock.agentId exC5Stock.stockEvent exPM
    have hs0 : exC5Stock.salesId.isSome = true := rfl
    rw [hss, hsa2, settlingStockBase_sales hs0]
    show some ((2 : Rat) * 10 * (100 / 50) * (10 / 100)) = some 4
    norm_num
  refine ⟨?_, ?_, hb, hs, ?_⟩
  · exact internalSettleSingleStock_ok_iff.mpr ⟨rfl, fun hc => absurd hc.1 (by decide), rfl⟩
  · unfold settlingStock
    simp only [show exC5DB.stocks.find? (fun t => t.id == 1 && t.status == StockStatus.created)
        = some exC5Stock from rfl]
    rw [if_neg (by show ¬((0 : Rat) + 2 < 0); norm_num)]
    rfl
  · rw [hb, hs]
    simp only [ne_eq, Option.some.injEq]
    norm_num

/-- C5 (amended): the batch path and the single-movement path agree on the
settled `initialAmount`, `updateAmount` and every per-tier share exactly
when their divergences are neutralised: the two predecessor selections
(`updatedAt, id` descending vs `createdAt` descending) pick the same row,
the stored `totalNetPrice` coincides with the basis `settlingStock`
recomputes (amount × latest price × 100 / supplier%), and the movement is a
`stock_out` carrying a seller reference — salesman, sub-agent, or agent —
(aligning the shop-share and insufficiency conditions).  In general the
paths diverge, as the counterexample shows. -/
theorem C5_path_equivalence_amended :
    ∀ (db : DB) (st : Stock) (lp : Price) (u : String),
      db.stocks.find? (fun t => t.id == st.id && t.status == StockStatus.created) = some st →
      st.status = .created →
      latestPriceFor st.metricId db.prices = some lp →
      st.totalNetPrice = settlingNetPrice st lp db.percentages →
      findLastSettled st.metricId db.stocks
        = findLastSettledByCreation st.metricId db.stocks →
      st.stockEvent = .stock_out →
      sellerPresent st.salesId st.subAgentId st.agentId →
      0 ≤ settleUpdate st db.stocks →
      internalSettleSingleStock st db.stocks db.percentages db.clock u
          = .ok (settledResult st db.stocks db.percentages db.clock u) ∧
      settlingStock st.id st.metricId db u
          = .settled
              { db with
                stocks := replaceStock db.stocks
                  (settlingSettledStock st st.metricId db.stocks lp db.percentages db.clock),
                clock := db.clock + 1 }
              (settlingSettledStock st st.metricId db.stocks lp db.percentages db.clock) ∧
      (settledResult st db.stocks db.percentages db.clock u).initialAmount
        = (settlingSettledStock st st.metricId db.stocks lp db.percentages db.clock).initialAmount ∧
      (settledResult st db.stocks db.percentages db.clock u).updateAmount
        = (settlingSettledStock st st.metricId db.stocks lp db.percentages db.clock).updateAmount ∧
      (settledResult st db.stocks db.percentages db.clock u).totalDistributorShare
        = (settlingSettledStock st st.metricId db.stocks lp db.percentages db.clock).totalDistributorShare ∧
      (settledResult st db.stocks db.percentages db.clock u).totalSalesShare
        = (settlingSettledStock st st.metricId db.stocks lp db.percentages db.clock).totalSalesShare ∧
      (settledResult st db.stocks db.percentages db.clock u).totalSubAgentShare
        = (settlingSettledStock st st.metricId db.stocks lp db.percentages db.clock).totalSubAgentShare ∧
      (settledResult st db.stocks db.percentages db.clock u).totalAgentShare
        = (settlingSettledStock st st.metricId db.stocks lp db.percentages db.clock).totalAgentShare ∧
      (settledResult st db.stocks db.percentages db.clock u).totalShopShare
        = (settlingSettledStock st st.metricId db.stocks lp db.percentages db.clock).totalShopShare := by
  intro db st lp u hfind hcr hlp htnp hpred hout hseller hge
  have hInit : settleInitial st db.stocks = settlingInitial st.metricId db.stocks := by
    unfold settleInitial settlingInitial
    rw [hpred]
  have hUpd : settleUpdate st db.stocks = settlingUpdate st st.metricId db.stocks := by
    unfold settleUpdate settlingUpdate
    rw [hInit]
  obtain ⟨hd, hsa, hsub, hag⟩ := internalSettleCommission_nonShop st.totalNetPrice st.salesId
    st.subAgentId st.agentId st.stockEvent db.percentages
  obtain ⟨hd2, hsa2, hsub2, hag2⟩ := settlingStockCommission_nonShop
    (settlingNetPrice st lp db.percentages) st.salesId st.subAgentId st.agentId
    st.stockEvent db.percentages
  obtain ⟨hst2, hini2, hupd2, hev2, hdd2, hss2, hbb2, haa2, hpp2⟩ :=
    settlingSettledStock_fields st st.metricId db.stocks lp db.percentages db.clock
  have hbases : internalSettleBase st.totalNetPrice st.salesId st.subAgentId st.agentId
      db.percentages
      = settlingStockBase (settlingNetPrice st lp db.percentages) st.salesId st.subAgentId
          st.agentId db.percentages := by
    rw [htnp]
    by_cases h1 : st.salesId.isSome
    · rw [internalSettleBase_sales h1, settlingStockBase_sales h1]
      simp only [mul_div_assoc]
    · have h1n : st.salesId = none := Option.not_isSome_iff_eq_none.mp h1
      by_cases h2 : st.subAgentId.isSome
      · rw [internalSettleBase_subAgent h1n h2, settlingStockBase_subAgent h1n h2]
        simp only [mul_div_assoc]
      · have h2n : st.subAgentId = none := Option.not_isSome_iff_eq_none.mp h2
        by_cases h3 : st.agentId.isSome
        · rw [internalSettleBase_agent h1n h2n h3, settlingStockBase_agent h1n h2n h3]
          simp only [mul_div_assoc]
        · have h3n : st.agentId = none := Option.not_isSome_iff_eq_none.mp h3
          rw [internalSettleBase_none h1n h2n h3n, settlingStockBase_none h1n h2n h3n]
  refine ⟨?_, ?_, ?_, ?_, ?_, ?_, ?_, ?_, ?_⟩
  · exact internalSettleSingleStock_ok_iff.mpr
      ⟨hcr, fun hc => absurd hc.2 (not_lt.mpr hge), rfl⟩
  · unfold settlingStock
    simp only [hfind]
    rw [if_neg (by rw [← hUpd]; exact not_lt.mpr hge)]
    simp only [hlp]
  · rw [settledResult_initialAmount, hini2, hInit]
  · rw [settledResult_updateAmount, hupd2, hUpd]
  · rw [settledResult_distributor, hd, hdd2, hd2, hbases]
  · rw [settledResult_sales, hsa, hss2, hsa2, hbases]
  · rw [settledResult_subAgent, hsub, hbb2, hsub2, hbases]
  · rw [settledResult_agent, hag, haa2, hag2, hbases]
  · rw [settledResult_shop, internalSettleCommission_shop, if_pos ⟨hout, hseller⟩,
      hpp2, settlingStockCommission_shop, if_pos hout, htnp, mul_div_assoc]

/-- Witness for C5 (amended): on the aligned databases `exC5WDB` (stock_out
salesman movement) and `exC5ADB` (stock_out agent movement), each with the
stored basis equal to the recomputed one and a single settled predecessor,
the two paths store the same seller-tier share, the same initial amount,
and — in the agent case — the same shop share. -/
theorem C5_path_equivalence_amended_witness :
    (settledResult exC5W exC5WDB.stocks exPM 5 "u").totalSalesShare
      = exC5WSingleRes.totalSalesShare ∧
    (settledResult exC5W exC5WDB.stocks exPM 5 "u").initialAmount
      = exC5WSingleRes.initialAmount ∧
    (settledResult exC5WAgent exC5ADB.stocks exPM 5 "u").totalAgentShare
      = exC5ASingleRes.totalAgentShare ∧
    (settledResult exC5WAgent exC5ADB.stocks exPM 5 "u").totalShopShare
      = exC5ASingleRes.totalShopShare := by
  have h := C5_path_equivalence_amended exC5WDB exC5W exPrice "u" rfl rfl rfl
    (by show (40 : Rat) = 2 * 10 * (100 / 50); norm_num) rfl rfl (Or.inl rfl)
    (by show (0 : Rat) ≤ 10 - 2; norm_num)
  have h2 := C5_path_equivalence_amended exC5ADB exC5WAgent exPrice "u" rfl rfl rfl
    (by show (40 : Rat) = 2 * 10 * (100 / 50); norm_num) rfl rfl (Or.inr (Or.inr rfl))
    (by show (0 : Rat) ≤ 10 - 2; norm_num)
  exact ⟨h.2.2.2.2.2.1, h.2.2.1, h2.2.2.2.2.2.2.2.1, h2.2.2.2.2.2.2.2.2⟩

/-- C6 (counterexample): the claim — every created row has null
running-balance fields and null share fields while `status = 'created'` —
fails on the single-movement creation path: `createStock` of a `stock_in`
movement of amount 5 (no settled predecessor) stores `status = created`
*and* `updateAmount = some 5` (JS coerces the null `initialAmount` to 0 in
`initialAmount + amount`), so `updateAmount` is populated before
settlement. -/
theorem C6_created_fields_counterexample :
    createStock exItemIn5 exC6DB "u" = .ok exC6DBAfter exC6Row ∧
    exC6Row.status = .created ∧
    exC6Row.updateAmount = some 5 ∧
    (some (5 : Rat) ≠ (none : Option Rat)) := by
  refine ⟨rfl, rfl, ?_, by simp⟩
  show createStockUpdateAmount exItemIn5 exC6DB.stocks = some 5
  show some ((0 : Rat) + 5) = some 5
  norm_num

/-- C6 (amended): batch-created rows (`_internalCreateSingleStock`) leave
`initialAmount` / `updateAmount` null but initialise every share field to 0
(the distributor column is non-nullable); single-path rows (`createStock`)
leave the seller/shop share fields null with a 0 distributor share, and
leave `updateAmount` null for `stock_out`, but a `stock_in` row is created
with `updateAmount = (previous non-zero settled level or 0) + amount`
already while `status = 'created'`; settlement is what populates
`initialAmount` / `updateAmount` definitively.  The populated-iff-settled
invariant therefore holds only in the weakened form stated here. -/
theorem C6_created_fields_amended :
    (∀ (item : ItemData) (prices : List Price) (u : String) (batchId newId now : Nat)
       (s : Stock), internalCreateSingleStock item prices u batchId newId now = .ok s →
       s.status = .created ∧ s.initialAmount = none ∧ s.updateAmount = none ∧
       s.totalDistributorShare = 0 ∧ s.totalSalesShare = some 0 ∧
       s.totalSubAgentShare = some 0 ∧ s.totalAgentShare = some 0 ∧
       s.totalShopShare = some 0) ∧
    (∀ (item : ItemData) (db : DB) (u : String) (db1 : DB) (s : Stock),
       createStock item db u = .ok db1 s →
       s.status = .created ∧ s.totalDistributorShare = 0 ∧ s.totalSalesShare = none ∧
       s.totalSubAgentShare = none ∧ s.totalAgentShare = none ∧ s.totalShopShare = none ∧
       (item.stockEvent = .stock_out → s.updateAmount = none) ∧
       (item.stockEvent = .stock_in →
         s.updateAmount
           = some ((createStockInitialAmount item db.stocks).getD 0 + item.amount))) ∧
    (∀ (s : Stock) (stocks : List Stock) (pm : PercentageMap) (now : Nat) (u : String)
       (s1 : Stock), internalSettleSingleStock s stocks pm now u = .ok s1 →
       s1.status = .settled ∧ s1.initialAmount = some (settleInitial s stocks) ∧
       s1.updateAmount = some (settleUpdate s stocks)) := by
  refine ⟨?_, ?_, ?_⟩
  · intro item prices u batchId newId now s h
    unfold internalCreateSingleStock at h
    cases hlp : latestPriceFor item.metricId prices with
    | none => simp only [hlp] at h; cases h
    | some lp =>
      simp only [hlp] at h
      injection h with h1
      subst h1
      exact ⟨rfl, rfl, rfl, rfl, rfl, rfl, rfl, rfl⟩
  · intro item db u db1 s h
    unfold createStock at h
    cases hlp : latestPriceFor item.metricId db.prices with
    | none => simp only [hlp] at h; cases h
    | some lp =>
      simp only [hlp] at h
      injection h with h1 h2
      subst h2
      refine ⟨rfl, rfl, rfl, rfl, rfl, rfl, ?_, ?_⟩
      · intro hevt
        show createStockUpdateAmount item db.stocks = none
        unfold createStockUpdateAmount
        rw [if_neg (by rw [hevt]; decide)]
      · intro hevt
        show createStockUpdateAmount item db.stocks
          = some ((createStockInitialAmount item db.stocks).getD 0 + item.amount)
        unfold createStockUpdateAmount
        rw [if_pos hevt]
  · intro s stocks pm now u s1 h
    obtain ⟨_, _, hs1⟩ := internalSettleSingleStock_ok_iff.mp h
    subst hs1
    exact ⟨rfl, rfl, rfl⟩

/-- Witness for C6 (amended), at the concrete `stock_in` creation. -/
theorem C6_created_fields_amended_witness :
    exC6Row.status = .created ∧ exC6Row.totalSalesShare = none ∧
    exC6Row.updateAmount
      = some ((createStockInitialAmount exItemIn5 exC6DB.stocks).getD 0
              + exItemIn5.amount) := by
  have h := C6_created_fields_amended.2.1 exItemIn5 exC6DB "u" exC6DBAfter exC6Row rfl
  exact ⟨h.1, h.2.2.1, h.2.2.2.2.2.2.2 rfl⟩

/-- C7: settling a movement whose status is not `created` fails with the
state-conflict error (no silent skip) and mutates nothing: the batch path
(`_internalSettleSingleStock`) throws `notCreated`, and in particular a
just-settled row fails again on a second settlement attempt; the single
path (`settlingStock`) reports not-found and returns the database
unchanged. -/
theorem C7_no_double_settlement :
    (∀ (s : Stock) (stocks : List Stock) (pm : PercentageMap) (now : Nat) (u : String),
       s.status ≠ .created →
       internalSettleSingleStock s stocks pm now u = .error (.notCreated s.id)) ∧
    (∀ (s : Stock) (stocks : List Stock) (pm : PercentageMap) (now : Nat) (u : String)
       (s1 : Stock) (stocks2 : List Stock) (pm2 : PercentageMap) (now2 : Nat) (u2 : String),
       internalSettleSingleStock s stocks pm now u = .ok s1 →
       internalSettleSingleStock s1 stocks2 pm2 now2 u2 = .error (.notCreated s1.id)) ∧
    (∀ (id m : Nat) (db : DB) (u : String),
       (∀ t ∈ db.stocks, t.id = id → t.status ≠ .created) →
       settlingStock id m db u = .notFound db) := by
  refine ⟨?_, ?_, ?_⟩
  · intro s stocks pm now u h
    exact internalSettleSingleStock_notCreated h
  · intro s stocks pm now u s1 stocks2 pm2 now2 u2 h
    obtain ⟨_, _, hs1⟩ := internalSettleSingleStock_ok_iff.mp h
    apply internalSettleSingleStock_notCreated
    rw [hs1, settledResult_status]
    decide
  · intro id m db u h
    exact settlingStock_notFound h

/-- Witness for C7: an already-settled row fails to settle again on both
paths, and a freshly settled row fails on the second attempt. -/
theorem C7_no_double_settlement_witness :
    internalSettleSingleStock exSettledStock [] exPM 2 "u"
        = .error (.notCreated exSettledStock.id) ∧
    internalSettleSingleStock exC1ARes [] exPM 9 "u" = .error (.notCreated exC1ARes.id) ∧
    settlingStock 3 1 exC7DB "u" = .notFound exC7DB := by
  refine ⟨?_, ?_, ?_⟩
  · exact C7_no_double_settlement.1 exSettledStock [] exPM 2 "u" (by decide)
  · exact C7_no_double_settlement.2.1 exC1A exC1Stocks exPM 5 "u" exC1ARes [] exPM 9 "u"
      (internalSettleSingleStock_ok_iff.mpr ⟨rfl, fun hc => absurd hc.1 (by decide), rfl⟩)
  · exact C7_no_double_settlement.2.2 3 1 exC7DB "u" (by decide)

/-- Looking up the batch id after the post-creation status update finds the
marked initial batch record, provided existing batch ids are fresh. -/
theorem findBatch_createMark (db : DB) (items : List ItemData) (u : String)
    (f : StockBatch → StockBatch) (hf : ∀ b, (f b).id = b.id)
    (hfresh : ∀ b ∈ db.batches, b.id ≠ db.nextBatchId) :
    findBatch db.nextBatchId ((db.batches ++ [initialBatchRecord items db u]).map f)
      = some (f (initialBatchRecord items db u)) := by
  unfold findBatch
  rw [find?_map_eq _ _ _ (fun x => by rw [hf x])]
  rw [find?_append_of_none _ _ _ ?_]
  · rw [List.find?_cons_of_pos _ (by simp [initialBatchRecord])]
    rfl
  · intro x hx
    simp [hfresh x hx]

/-- C8: batch creation is atomic.  With a non-empty request list (and fresh
batch ids), if any requested item has no price for its metric then
`createStockBatch` fails, zero movements persist (the stocks table is
unchanged), and the batch record is `failed` with the causing error message
captured; if every item has a price, all N movements persist (appended to
the stocks table) and the batch record is `completed` with
`successCount = N`. -/
theorem C8_batch_creation_atomic :
    ∀ (items : List ItemData) (db : DB) (u : String),
      items ≠ [] →
      (∀ b ∈ db.batches, b.id ≠ db.nextBatchId) →
      ((∃ it ∈ items, latestPriceFor it.metricId db.prices = none) →
        ∃ db1 e, createStockBatch items db u = .failed db1 db.nextBatchId e ∧
          db1.stocks = db.stocks ∧
          ∃ b, findBatch db.nextBatchId db1.batches = some b ∧ b.status = .failed ∧
            b.errorMessage = some (createErrMsg e)) ∧
      ((∀ it ∈ items, (latestPriceFor it.metricId db.prices).isSome) →
        ∃ db1 created, createStockBatch items db u = .ok db1 db.nextBatchId created ∧
          created.length = items.length ∧ db1.stocks = db.stocks ++ created ∧
          ∃ b, findBatch db.nextBatchId db1.batches = some b ∧ b.status = .completed ∧
            b.successCount = some items.length) := by
  intro items db u hne hfresh
  have hemp : items.isEmpty = false := by
    cases items with
    | nil => exact absurd rfl hne
    | cons a l => rfl
  constructor
  · rintro ⟨it, hmem, hnone⟩
    obtain ⟨e, he⟩ := createAllStocks_error_of_missing db.prices u db.nextBatchId db.clock
      items db.nextStockId it hmem hnone
    have hrun : createStockBatch items db u
        = .failed
            { db with
              nextBatchId := db.nextBatchId + 1
              batches := (db.batches ++ [initialBatchRecord items db u]).map (fun b =>
                if b.id = db.nextBatchId then
                  { b with status := .failed, successCount := some 0,
                           failureCount := some b.itemCount,
                           errorMessage := some (createErrMsg e) }
                else b) }
            db.nextBatchId e := by
      unfold createStockBatch
      rw [if_neg (by simp [hemp])]
      simp only [he]
    refine ⟨_, e, hrun, rfl, ?_⟩
    refine ⟨_, findBatch_createMark db items u _ ?_ hfresh, ?_, ?_⟩
    · intro b
      by_cases hb : b.id = db.nextBatchId
      · rw [if_pos hb]
      · rw [if_neg hb]
    · rw [if_pos (show (initialBatchRecord items db u).id = db.nextBatchId from rfl)]
    · rw [if_pos (show (initialBatchRecord items db u).id = db.nextBatchId from rfl)]
  · intro hall
    obtain ⟨l, hl⟩ := createAllStocks_isOk db.prices u db.nextBatchId db.clock items
      db.nextStockId hall
    have hlen := createAllStocks_length db.prices u db.nextBatchId db.clock items
      db.nextStockId l hl
    have hrun : createStockBatch items db u
        = .ok
            { db with
              stocks := db.stocks ++ l
              nextStockId := db.nextStockId + l.length
              clock := db.clock + 1
              nextBatchId := db.nextBatchId + 1
              batches := (db.batches ++ [initialBatchRecord items db u]).map (fun b =>
                if b.id = db.nextBatchId then
                  { b with status := .completed, successCount := some l.length,
                           failureCount := some 0 }
                else b) }
            db.nextBatchId l := by
      unfold createStockBatch
      rw [if_neg (by simp [hemp])]
      simp only [hl]
    refine ⟨_, l, hrun, hlen, rfl, ?_⟩
    refine ⟨_, findBatch_createMark db items u _ ?_ hfresh, ?_, ?_⟩
    · intro b
      by_cases hb : b.id = db.nextBatchId
      · rw [if_pos hb]
      · rw [if_neg hb]
    · rw [if_pos (show (initialBatchRecord items db u).id = db.nextBatchId from rfl)]
    · rw [if_pos (show (initialBatchRecord items db u).id = db.nextBatchId from rfl)]
      show some l.length = some items.length
      rw [hlen]

/-- Witness for C8: a one-item batch whose metric has no price fails
atomically, and a one-item batch with a price completes with
`successCount = 1`. -/
theorem C8_batch_creation_atomic_witness :
    (∃ db1 e, createStockBatch [exItemBad] exC6DB "u" = .failed db1 0 e ∧
      db1.stocks = exC6DB.stocks ∧
      ∃ b, findBatch 0 db1.batches = some b ∧ b.status = .failed ∧
        b.errorMessage = some (createErrMsg e)) ∧
    (∃ db1 created, createStockBatch [exItemIn5] exC6DB "u" = .ok db1 0 created ∧
      created.length = 1 ∧ db1.stocks = exC6DB.stocks ++ created ∧
      ∃ b, findBatch 0 db1.batches = some b ∧ b.status = .completed ∧
        b.successCount = some 1) := by
  constructor
  · exact (C8_batch_creation_atomic [exItemBad] exC6DB "u" (by decide)
      (by intro b hb; cases hb)).1 ⟨exItemBad, List.mem_cons_self _ _, rfl⟩
  · exact (C8_batch_creation_atomic [exItemIn5] exC6DB "u" (by decide)
      (by intro b hb; cases hb)).2 (by decide)

/-- C9: `cancelStockBatch` succeeds exactly for a batch in `processing` or
`completed` status: it flips every `created` movement of the batch to
`canceled` (leaving other movements untouched) and the batch to `canceled`,
and a subsequent `settleStockBatch` on the canceled batch fails with the
wrong-state outcome; for any other batch status the cancellation is
rejected with no mutation. -/
theorem C9_cancel_batch :
    ∀ (batchId : Nat) (db : DB) (u : String) (b : StockBatch),
      findBatch batchId db.batches = some b →
      ((b.status = .processing ∨ b.status = .completed) →
        ∃ db1, cancelStockBatch batchId db u
            = .ok db1 (createdStocksOf batchId db).length ∧
          (∀ s ∈ db.stocks, s.stockBatchId = some batchId → s.status = .created →
            { s with status := StockStatus.canceled, canceledBy := some u } ∈ db1.stocks) ∧
          (∀ s ∈ db.stocks, ¬(s.stockBatchId = some batchId ∧ s.status = .created) →
            s ∈ db1.stocks) ∧
          (∃ b1, findBatch batchId db1.batches = some b1 ∧ b1.status = .canceled) ∧
          settleStockBatch batchId db1 u = .wrongState db1 .canceled) ∧
      ((b.status ≠ .processing ∧ b.status ≠ .completed) →
        cancelStockBatch batchId db u = .notCancelable db b.status) := by
  intro batchId db u b hfb
  have hid : b.id = batchId := by
    have hfb2 : db.batches.find? (fun bb => bb.id == batchId) = some b := hfb
    have := List.find?_some hfb2
    simpa using this
  have hpres : ∀ x : StockBatch,
      (((fun bb => if bb.id = batchId then
          { bb with status := BatchStatus.canceled, canceledBy := some u } else bb) x).id
        == batchId)
      = (x.id == batchId) := by
    intro x
    show ((if x.id = batchId then
        { x with status := BatchStatus.canceled, canceledBy := some u } else x).id == batchId)
      = (x.id == batchId)
    by_cases hx : x.id = batchId
    · rw [if_pos hx]
    · rw [if_neg hx]
  constructor
  · intro hstat
    have hcond : ¬(b.status ≠ BatchStatus.completed ∧ b.status ≠ BatchStatus.processing) := by
      rcases hstat with h | h
      · exact fun hc => hc.2 h
      · exact fun hc => hc.1 h
    have hrun : cancelStockBatch batchId db u
        = .ok
            { db with
              stocks := db.stocks.map (fun s =>
                if s.stockBatchId = some batchId ∧ s.status = StockStatus.created then
                  { s with status := .canceled, canceledBy := some u }
                else s)
              batches := db.batches.map (fun bb =>
                if bb.id = batchId then
                  { bb with status := .canceled, canceledBy := some u }
                else bb) }
            (createdStocksOf batchId db).length := by
      unfold cancelStockBatch
      simp only [hfb]
      rw [if_neg hcond]
    have hfbc : findBatch batchId
        (db.batches.map (fun bb =>
          if bb.id = batchId then
            { bb with status := BatchStatus.canceled, canceledBy := some u }
          else bb))
        = some { b with status := BatchStatus.canceled, canceledBy := some u } := by
      unfold findBatch
      rw [find?_map_eq _ _ _ hpres,
        show db.batches.find? (fun bb => bb.id == batchId) = some b from hfb]
      simp only [Option.map_some']
      rw [if_pos hid]
    refine ⟨_, hrun, ?_, ?_, ?_, ?_⟩
    · intro s hs hbid hcr
      exact List.mem_map.mpr ⟨s, hs, by rw [if_pos ⟨hbid, hcr⟩]⟩
    · intro s hs hc
      exact List.mem_map.mpr ⟨s, hs, by rw [if_neg hc]⟩
    · exact ⟨_, hfbc, rfl⟩
    · unfold settleStockBatch
      simp only [hfbc]
      rw [if_pos (by decide)]
  · intro hc
    unfold cancelStockBatch
    simp only [hfb]
    rw [if_pos ⟨hc.2, hc.1⟩]

/-- Witness for C9: canceling batch 0 of `exC9DB` (two `created` movements)
yields `exC9CanceledDB` with both movements canceled, and settling the
canceled batch fails with the wrong-state outcome. -/
theorem C9_cancel_batch_witness :
    settleStockBatch 0 exC9CanceledDB "u" = .wrongState exC9CanceledDB .canceled ∧
    cancelStockBatch 0 exC9DB "u" = .ok exC9CanceledDB 2 := by
  obtain ⟨db1, heq, hmem1, hmem2, hb1, hsettle⟩ :=
    ((C9_cancel_batch 0 exC9DB "u" exBatch rfl).1 (Or.inr rfl))
  have hconc : cancelStockBatch 0 exC9DB "u" = .ok exC9CanceledDB 2 := rfl
  rw [heq] at hconc
  injection hconc with h1 h2
  subst h1
  exact ⟨hsettle, heq⟩

/-- C10: after a settlement failure, `settleStockBatch`'s failure handler
marks the batch `failed` only when its current status is not `settled`
(`status: { [Op.not]: 'settled' }`), so a batch in `settled` status is never
overwritten to `failed`: the set of `settled` batch rows is exactly
preserved across the failure handling. -/
theorem C10_settled_never_failed :
    ∀ (batchId : Nat) (db : DB) (u : String) (db1 : DB) (e : SettleErr),
      settleStockBatch batchId db u = .failed db1 e →
      (∀ b ∈ db.batches, b.status = .settled → b ∈ db1.batches) ∧
      (∀ b ∈ db1.batches, b.status = .settled → b ∈ db.batches) := by
  intro batchId db u db1 e h
  obtain ⟨batch, hfb, hst, hsl, hdb1⟩ := settleStockBatch_failed_inv h
  subst hdb1
  constructor
  · intro b hb hbs
    show b ∈ markBatchFailedUnlessSettled db.batches batchId (settleErrMsg e)
    unfold markBatchFailedUnlessSettled
    refine List.mem_map.mpr ⟨b, hb, ?_⟩
    rw [if_neg]
    intro hc
    exact hc.2 hbs
  · intro b hb hbs
    replace hb : b ∈ markBatchFailedUnlessSettled db.batches batchId (settleErrMsg e) := hb
    unfold markBatchFailedUnlessSettled at hb
    obtain ⟨b0, hb0, hfb0⟩ := List.mem_map.mp hb
    by_cases hc : b0.id = batchId ∧ b0.status ≠ BatchStatus.settled
    · rw [if_pos hc] at hfb0
      rw [← hfb0] at hbs
      simp at hbs
    · rw [if_neg hc] at hfb0
      exact hfb0 ▸ hb0

/-- Witness for C10: in the concrete failed settlement of batch 0, the
`settled` batch 7 survives untouched in the post-failure database. -/
theorem C10_settled_never_failed_witness :
    exSettledBatch ∈ exC2FailedDB.batches ∧ exSettledBatch.status = .settled := by
  refine ⟨?_, rfl⟩
  exact (C10_settled_never_failed 0 exC2DB "u" exC2FailedDB (.insufficientStock 1 1)
      exC2_settle_failed).1 exSettledBatch
    (show exSettledBatch ∈ [exBatch, exSettledBatch] from
      List.mem_cons_of_mem _ (List.mem_cons_self _ _)) rfl
